import Mathlib

/-!
Shallow embedding of `fill_first_page.py` (avalform_crawler).

The script drives a multi-page web form through a browser-automation driver.
We model the observable behaviour of each function as a pure computation over:

* `PageModel`  — the DOM structure the driver queries (text inputs and selects
  matched by the name-or-id selectors, radio controls with their optional
  `name` / `value` / `id` attributes, the label elements keyed by `for`, and
  whether the bounded `wait_for_selector` for a radio succeeds);
* `Env`        — the outcome (success / `PlaywrightTimeoutError` / other
  exception) the driver gives each fill / select_option / check / click call;
* a random stream `rand : Nat → Nat`, where the k-th `random.choice` on a
  list `l` picks index `rand k % l.length` (Python's `random.choice` picks a
  uniform index into the sequence, deterministically given the RNG state);
* for the matrix filler, an enumeration oracle
  `enumOrd : String → List String → List String` modelling `list(value_set)`:
  a Python `set` of strings has no specified iteration order (it depends on
  per-process string hashing), so `list(...)` returns the set's elements in
  some order that is NOT a function of the page structure or the random seed.
  `enumOrd` receives the group name and the canonical (insertion-ordered,
  duplicate-free) value list and returns the enumeration actually used; a
  faithful oracle returns a permutation.

Each modelled function returns the list of driver actions and console lines
it produces (`Event`) together with `Option Exn`: `none` means the Python
function returned normally, `some e` means an uncaught exception `e`
propagated out of it.  Python's `try/except Exception` blocks are translated
by `tryAllE` (catches everything), `try/except PlaywrightTimeoutError` by
`tryTimeout` (catches only the timeout and lets other exceptions propagate),
and the bare `try/except: pass` around the settle pauses never raises.
-/

namespace Avalform

/-- Outcome the driver gives to one raw action, as supplied by the
environment: success, a `PlaywrightTimeoutError`, or some other exception
carrying a message. -/
inductive Raised where
  | ok
  | timeoutErr
  | exn (msg : String)
deriving DecidableEq, Repr

/-- An exception value propagating through the Python code. -/
inductive Exn where
  | timeoutE
  | otherE (msg : String)
deriving DecidableEq, Repr

/-- Message text of an exception, as interpolated into the `print` calls. -/
def exnMsg : Exn → String
  | .timeoutE => "Timeout"
  | .otherE m => m

/-- A radio `<input>` element as seen through `get_attribute`: each of the
`name`, `value` and `id` attributes may be absent. -/
structure RadioElem where
  name : Option String
  value : Option String
  id : Option String
deriving DecidableEq, Repr

/-- The DOM structure of the page the script currently sees.
`textFields` (resp. `selectFields`) holds the field names `f` for which the
selector `input[name="f"], input#f` (resp. `select[name="f"], select#f`)
matches a control.  `radios` is the result of
`query_selector_all('input[type="radio"]')` in DOM order.  `labelIds` holds
the ids `i` for which `label[for="i"]` matches.  `radioAppears` records
whether `wait_for_selector('input[type="radio"]', timeout)` succeeds within
its bound. -/
structure PageModel where
  textFields : List String
  selectFields : List String
  radios : List RadioElem
  labelIds : List String
  radioAppears : Bool
deriving Repr

/-- Driver outcomes for the individual actions the script performs on a page:
`fillRes f v` for `page.fill` on field `f` with string `v`; `selectRes` for
`page.select_option`; `checkRes n v` for `page.check` on the radio with the
given name and value; `labelClickRes i` for `page.click` on `label[for="i"]`;
`submitRes` for `page.click("input#submit_primary", timeout=5000)`. -/
structure Env where
  fillRes : String → String → Raised
  selectRes : String → String → Raised
  checkRes : String → String → Raised
  labelClickRes : String → Raised
  submitRes : Raised

/-- Observable steps: driver actions attempted (queries, fills, selects,
checks, clicks, navigations, waits, pauses) and console output lines
(`info` for plain prints, `warnMsg` for `[WARNING]` lines, `errMsg` for
`[ERROR]` lines). -/
inductive Event where
  | queryText (field : String)
  | querySelect (field : String)
  | fillAct (field : String) (value : String)
  | selectAct (field : String) (value : String)
  | queryRadio (n v : String)
  | checkAct (n v : String)
  | queryLabel (id : String)
  | clickLabelAct (id : String)
  | clickSubmit
  | gotoPage (url : String)
  | waitForSel (sel : String)
  | pauseMs (ms : Nat)
  | warnMsg (m : String)
  | errMsg (m : String)
  | info (m : String)
  | launchBrowser
  | closeBrowser
  | promptUser
deriving DecidableEq, Repr

/-- Result of running a piece of the script: the events it emitted, and
`some e` when it terminated by raising the uncaught exception `e`. -/
abbrev Res := List Event × Option Exn

/-- One raw driver action: emits its event, and raises according to the
environment-supplied outcome. -/
def rawAct (r : Raised) (ev : Event) : Res :=
  match r with
  | .ok => ([ev], none)
  | .timeoutErr => ([ev], some .timeoutE)
  | .exn m => ([ev], some (.otherE m))

/-- `try: <a> except Exception as e: <handler e>` — every exception is caught,
the handler's output is appended, and nothing propagates. -/
def tryAllE (a : Res) (handler : Exn → List Event) : List Event :=
  match a with
  | (es, none) => es
  | (es, some e) => es ++ handler e

/-- `try: <a> except PlaywrightTimeoutError: <handler>` — only the timeout is
caught; any other exception propagates. -/
def tryTimeout (a : Res) (handler : List Event) : Res :=
  match a with
  | (es, none) => (es, none)
  | (es, some .timeoutE) => (es ++ handler, none)
  | (es, some (.otherE m)) => (es, some (.otherE m))

/-- Run a straight-line sequence of steps, stopping at the first uncaught
exception (later steps do not run). -/
def seqList : List Res → Res
  | [] => ([], none)
  | r :: rest =>
    match r with
    | (es, none) =>
      let t := seqList rest
      (es ++ t.1, t.2)
    | (es, some e) => (es, some e)

/-- `Bool` test: is this `Raised` outcome a non-timeout exception? -/
def isExnR : Raised → Bool
  | .exn _ => true
  | _ => false

/-- A scalar value of a person record (the JSON file holds strings or
numbers); `str(value)` in Python is `Scalar.toStr`. -/
inductive Scalar where
  | s (v : String)
  | n (v : Int)
deriving DecidableEq, Repr

/-- `str(value)`. -/
def Scalar.toStr : Scalar → String
  | .s v => v
  | .n v => toString v

/-- A person record: `dict` iteration order in Python is insertion order, so
we model the record as the ordered list of its (field, value) pairs. -/
abbrev Person := List (String × Scalar)

/-- `SITE_URL` constant of the script. -/
def siteUrl : String := "https://form.avalform.com/view.php?id=70833985"

/-- Selector string for the text-input lookup of a field. -/
def selInput (f : String) : String :=
  "input[name=\"" ++ f ++ "\"], input#" ++ f

/-- Selector string for the select lookup of a field. -/
def selSelect (f : String) : String :=
  "select[name=\"" ++ f ++ "\"], select#" ++ f

/-- Selector string for a radio input by name and value. -/
def radioSel (n v : String) : String :=
  "input[name=\"" ++ n ++ "\"][value=\"" ++ v ++ "\"]"

/-- Selector waited for by both radio fillers. -/
def radioAllSel : String := "input[type=\"radio\"]"

/-- Selector waited for on page 1. -/
def containerSel : String := "#form_container"

def noControlMsg (f : String) : String :=
  "[WARNING] No input/select found for " ++ f ++ "."

def fillErrMsg (f v m : String) : String :=
  "[ERROR] Filling " ++ f ++ " with " ++ v ++ " failed: " ++ m

def p1ContinueErrMsg : String :=
  "[ERROR] Could not find/click Continue on page 1."

def continueErrMsg : String :=
  "[ERROR] Could not find/click Continue on this page."

def valueNotFoundMsg (n v : String) : String :=
  "[WARNING] For group " ++ n ++ ", value=" ++ v ++ " not found."

def checkErrMsg (n v m : String) : String :=
  "[ERROR] Checking " ++ radioSel n v ++ " failed: " ++ m

def labelMissingMsg (i : String) : String :=
  "[WARNING] Label for id " ++ i ++ " not found."

def labelClickErrMsg (i m : String) : String :=
  "[ERROR] Clicking label " ++ "label[for=\"" ++ i ++ "\"]" ++ " failed: " ++ m

/-- Does `page.query_selector(selector_input)` find a control for field `f`? -/
def PageModel.hasText (page : PageModel) (f : String) : Bool :=
  page.textFields.contains f

/-- Does `page.query_selector(selector_select)` find a control for field `f`? -/
def PageModel.hasSelect (page : PageModel) (f : String) : Bool :=
  page.selectFields.contains f

/-- One iteration of the per-field loop of `fill_first_page`: look up a text
input by name-or-id; if present fill it (exceptions caught and logged);
otherwise look up a select; if present select the option (exceptions caught
and logged); otherwise warn.  The whole body sits inside
`try/except Exception`, so no exception ever escapes a field. -/
def fillField (page : PageModel) (env : Env) (f : String) (v : Scalar) :
    List Event :=
  if page.hasText f then
    Event.queryText f ::
      tryAllE (rawAct (env.fillRes f v.toStr) (Event.fillAct f v.toStr))
        (fun e => [Event.errMsg (fillErrMsg f v.toStr (exnMsg e))])
  else if page.hasSelect f then
    Event.queryText f :: Event.querySelect f ::
      tryAllE (rawAct (env.selectRes f v.toStr) (Event.selectAct f v.toStr))
        (fun e => [Event.errMsg (fillErrMsg f v.toStr (exnMsg e))])
  else
    [Event.queryText f, Event.querySelect f, Event.warnMsg (noControlMsg f)]

/-- The trailing `page.click("input#submit_primary", timeout=5000)` of
`fill_first_page`, guarded by `except PlaywrightTimeoutError` only. -/
def clickSubmitP1 (env : Env) : Res :=
  tryTimeout (rawAct env.submitRes Event.clickSubmit)
    [Event.errMsg p1ContinueErrMsg]

/-- `fill_first_page(person_data, page)`: fill each field in record order,
then click the page-1 Continue control. -/
def fillFirstPage (page : PageModel) (env : Env) (person : Person) : Res :=
  let fieldEvs := person.flatMap (fun fv => fillField page env fv.1 fv.2)
  let c := clickSubmitP1 env
  (fieldEvs ++ c.1, c.2)

/-- `click_continue(page)`: click `input#submit_primary` with a 5000 ms
bound; a timeout is caught and logged, any other exception propagates. -/
def clickContinue (env : Env) : Res :=
  tryTimeout (rawAct env.submitRes Event.clickSubmit)
    [Event.errMsg continueErrMsg]

/-! ### Radio grouping

Both radio fillers build a Python `dict` keyed by the group name via
`groups.setdefault(name, init).<combine>(value)`; iteration over a `dict`
follows key-insertion order.  `upsert comb` is that update on an ordered
association list: `comb` is `.add` on a set for the matrix filler (no
duplicates, insertion order of first occurrence) and `.append` on a list for
the label filler. -/

/-- `set.add`: the canonical duplicate-free, insertion-ordered content of the
Python set of values. -/
def addValue (l : List String) (v : String) : List String :=
  if v ∈ l then l else l ++ [v]

/-- `groups.setdefault(n, init); <combine with v>` on an insertion-ordered
association list. -/
def upsert (comb : List α → α → List α) :
    List (String × List α) → String → α → List (String × List α)
  | [], n, v => [(n, comb [] v)]
  | (m, ws) :: rest, n, v =>
    if m = n then (m, comb ws v) :: rest
    else (m, ws) :: upsert comb rest n v

/-- Association-list lookup (first entry with the given key). -/
def lookupG : List (String × List α) → String → Option (List α)
  | [], _ => none
  | (m, ws) :: rest, n => if m = n then some ws else lookupG rest n

/-- Python truthiness of an optional string attribute: `not attr` is true
when the attribute is absent or the empty string; `continue` skips such
radios. -/
def truthy : Option String → Bool
  | none => false
  | some s => !(s == "")

/-- The grouping loop of `fill_radio_matrix_page`: radios whose `name` or
`value` attribute is missing (or empty) are skipped; the rest are entered
into `name → set of values`. -/
def buildGroupsAux : List (String × List String) → List RadioElem →
    List (String × List String)
  | gs, [] => gs
  | gs, e :: rest =>
    buildGroupsAux
      (if truthy e.name && truthy e.value then
        upsert addValue gs (e.name.getD "") (e.value.getD "")
      else gs) rest

/-- `groups` as built by `fill_radio_matrix_page` from the discovered
radios. -/
def buildGroups (radios : List RadioElem) : List (String × List String) :=
  buildGroupsAux [] radios

/-- The grouping loop of `fill_page_5_or_7`: radios whose `name`, `value` or
`id` attribute is missing (or empty) are skipped; the rest are appended into
`name → list of (value, id) pairs`. -/
def buildPairGroupsAux : List (String × List (String × String)) →
    List RadioElem → List (String × List (String × String))
  | gs, [] => gs
  | gs, e :: rest =>
    buildPairGroupsAux
      (if truthy e.name && truthy e.value && truthy e.id then
        upsert (fun ws p => ws ++ [p]) gs (e.name.getD "")
          (e.value.getD "", e.id.getD "")
      else gs) rest

/-- `groups` as built by `fill_page_5_or_7` from the discovered radios. -/
def buildPairGroups (radios : List RadioElem) :
    List (String × List (String × String)) :=
  buildPairGroupsAux [] radios

/-- `random.choice(list(value_set))`: the enumeration oracle `enumOrd` turns
the set's content into the list Python iterates, and the draw `r` picks index
`r % length` (Python's choice of a uniform index into the sequence). -/
def chosenValue (enumOrd : String → List String → List String)
    (n : String) (vs : List String) (r : Nat) : String :=
  let l := enumOrd n vs
  l.getD (r % l.length) ""

/-- `random.choice(options)` of the label filler: `options` is a list, so
the enumeration is the list itself. -/
def pairChosen (opts : List (String × String)) (r : Nat) : String × String :=
  opts.getD (r % opts.length) ("", "")

/-- Does `page.query_selector('input[name="n"][value="v"]')` find a control?
On the matrix pages the inputs carrying name+value pairs are the radios. -/
def pageHasRadio (page : PageModel) (n v : String) : Bool :=
  page.radios.any (fun e => e.name == some n && e.value == some v)

/-- The per-group body of `fill_radio_matrix_page`: choose a value from the
discovered set, query the name+value selector; if found, `page.check` it
(exceptions caught and logged as `[ERROR]`); otherwise print a `[WARNING]`.
The whole body sits inside `try/except Exception`. -/
def matrixGroupStep (page : PageModel) (env : Env)
    (enumOrd : String → List String → List String)
    (n : String) (vs : List String) (r : Nat) : List Event :=
  let c := chosenValue enumOrd n vs r
  if pageHasRadio page n c then
    Event.queryRadio n c ::
      tryAllE (rawAct (env.checkRes n c) (Event.checkAct n c))
        (fun e => [Event.errMsg (checkErrMsg n c (exnMsg e))])
  else
    [Event.queryRadio n c, Event.warnMsg (valueNotFoundMsg n c)]

/-- The `for name, value_set in groups.items()` loop; the i-th group uses the
i-th draw of the random stream. -/
def matrixLoop (page : PageModel) (env : Env)
    (enumOrd : String → List String → List String) :
    List (String × List String) → (Nat → Nat) → Nat → List Event
  | [], _, _ => []
  | (n, vs) :: rest, rand, i =>
    matrixGroupStep page env enumOrd n vs (rand i) ++
      matrixLoop page env enumOrd rest rand (i + 1)

/-- `fill_radio_matrix_page(page, timeout)`: wait for any radio (timeout ⇒
return with no effect), group the discovered radios, and answer each group.
Never raises. -/
def fillRadioMatrixPage (page : PageModel) (env : Env) (rand : Nat → Nat)
    (enumOrd : String → List String → List String) : Res :=
  if page.radioAppears then
    (Event.waitForSel radioAllSel ::
      matrixLoop page env enumOrd (buildGroups page.radios) rand 0, none)
  else
    ([Event.waitForSel radioAllSel], none)

/-- Does `page.query_selector('label[for="i"]')` find a label? -/
def pageHasLabel (page : PageModel) (i : String) : Bool :=
  page.labelIds.contains i

/-- The per-group body of `fill_page_5_or_7`: choose a (value, id) pair from
the group's options, query the label keyed on the chosen id; if found, click
it with a 5000 ms bound (both timeouts and other exceptions are caught by
`except Exception` and logged as `[ERROR]`); otherwise print a `[WARNING]`. -/
def labelStep (page : PageModel) (env : Env)
    (opts : List (String × String)) (r : Nat) : List Event :=
  let p := pairChosen opts r
  if pageHasLabel page p.2 then
    Event.queryLabel p.2 ::
      tryAllE (rawAct (env.labelClickRes p.2) (Event.clickLabelAct p.2))
        (fun e => [Event.errMsg (labelClickErrMsg p.2 (exnMsg e))])
  else
    [Event.queryLabel p.2, Event.warnMsg (labelMissingMsg p.2)]

/-- The `for name, options in groups.items()` loop of the label filler. -/
def labelLoop (page : PageModel) (env : Env) :
    List (String × List (String × String)) → (Nat → Nat) → Nat → List Event
  | [], _, _ => []
  | (_, opts) :: rest, rand, i =>
    labelStep page env opts (rand i) ++ labelLoop page env rest rand (i + 1)

/-- `fill_page_5_or_7(page)`: wait for any radio (timeout ⇒ return with no
effect), group the discovered radios into (value, id) pairs by name, and
click one label per group.  Never raises. -/
def fillPage5or7 (page : PageModel) (env : Env) (rand : Nat → Nat) : Res :=
  if page.radioAppears then
    (Event.waitForSel radioAllSel ::
      labelLoop page env (buildPairGroups page.radios) rand 0, none)
  else
    ([Event.waitForSel radioAllSel], none)

/-! ### Orchestration (`main`)

For one person, `main` navigates to `SITE_URL`, waits 10000 ms for
`#form_container` (goto timeout and container timeout each print an error,
close the browser and `return`, ending the whole run), fills page 1, and
then drives pages 2–8 as straight-line code: a 1000 ms settle pause, the
page's fill strategy, and the Continue click, for the fixed page kinds
matrix, matrix, matrix, label-click, matrix, label-click, matrix.

The driver outcomes a given person observes are collected in `PersonWorld`:
the page model, action outcomes, random draws and set-enumeration oracle may
differ per page slot (1–8). -/

/-- What the world presents to the script while it processes one person. -/
structure PersonWorld where
  gotoRes : Raised
  containerOk : Bool
  page : Nat → PageModel
  env : Nat → Env
  rand : Nat → Nat → Nat
  enumOrd : String → List String → List String

/-- How an iteration of the person loop ends prematurely: `fatalStop` for the
`return` after a goto/container failure (browser closed, run over), `raised`
for an uncaught exception propagating out of `main`. -/
inductive StopKind where
  | fatalStop
  | raised (e : Exn)
deriving DecidableEq, Repr

/-- `page.wait_for_timeout(1000)` wrapped in a bare `try/except: pass`. -/
def pauseStep : Res := ([Event.pauseMs 1000], none)

def processingBanner (idx : Nat) : String :=
  "=== Processing person #" ++ toString idx ++ " ==="

def doneBanner (idx : Nat) : String :=
  "=== Person #" ++ toString idx ++ " done. ==="

def loadErrMsg : String := "[ERROR] Could not load page 1. Check SITE_URL."

def containerErrMsg : String :=
  "[ERROR] #form_container not found on page 1."

/-- One iteration of the `for idx, person in enumerate(people, start=1)`
loop: banner, goto (timeout ⇒ fatal stop; other exception propagates), wait
for the container (timeout ⇒ fatal stop), then the straight-line page
sequence.  An uncaught exception from any step aborts the iteration. -/
def runPerson (pw : PersonWorld) (idx : Nat) (person : Person) :
    List Event × Option StopKind :=
  let pre := [Event.info (processingBanner idx), Event.gotoPage siteUrl]
  match pw.gotoRes with
  | .timeoutErr =>
    (pre ++ [Event.errMsg loadErrMsg, Event.closeBrowser], some .fatalStop)
  | .exn m => (pre, some (.raised (.otherE m)))
  | .ok =>
    if pw.containerOk then
      let body := seqList
        [ fillFirstPage (pw.page 1) (pw.env 1) person
        , pauseStep
        , fillRadioMatrixPage (pw.page 2) (pw.env 2) (pw.rand 2) pw.enumOrd
        , clickContinue (pw.env 2)
        , pauseStep
        , fillRadioMatrixPage (pw.page 3) (pw.env 3) (pw.rand 3) pw.enumOrd
        , clickContinue (pw.env 3)
        , pauseStep
        , fillRadioMatrixPage (pw.page 4) (pw.env 4) (pw.rand 4) pw.enumOrd
        , clickContinue (pw.env 4)
        , pauseStep
        , fillPage5or7 (pw.page 5) (pw.env 5) (pw.rand 5)
        , clickContinue (pw.env 5)
        , pauseStep
        , fillRadioMatrixPage (pw.page 6) (pw.env 6) (pw.rand 6) pw.enumOrd
        , clickContinue (pw.env 6)
        , pauseStep
        , fillPage5or7 (pw.page 7) (pw.env 7) (pw.rand 7)
        , clickContinue (pw.env 7)
        , pauseStep
        , fillRadioMatrixPage (pw.page 8) (pw.env 8) (pw.rand 8) pw.enumOrd
        , clickContinue (pw.env 8) ]
      match body with
      | (es, none) =>
        (pre ++ [Event.waitForSel containerSel] ++ es ++
          [Event.info (doneBanner idx)], none)
      | (es, some e) =>
        (pre ++ [Event.waitForSel containerSel] ++ es, some (.raised e))
    else
      (pre ++ [Event.waitForSel containerSel, Event.errMsg containerErrMsg,
        Event.closeBrowser], some .fatalStop)

/-- The whole world `main` runs in: whether `persons.json` exists, the result
of `json.loads` on its text, and the per-person driver worlds (indexed by the
1-based enumeration index). -/
structure World where
  fileExists : Bool
  parsed : Except String (List Person)
  pw : Nat → PersonWorld

/-- The person loop: runs each record in order; a stop (fatal `return` or a
propagating exception) ends the loop, and later records are not touched. -/
def processPeople (w : World) : List Person → Nat →
    List Event × Option StopKind
  | [], _ => ([], none)
  | p :: rest, i =>
    match runPerson (w.pw i) i p with
    | (es, none) =>
      let t := processPeople w rest (i + 1)
      (es ++ t.1, t.2)
    | (es, some s) => (es, some s)

def fileMissingMsg : String := "[ERROR] persons.json not found."

def closingMsg : String := "Closing browser..."

/-- `main()`: a missing data file is reported and nothing else happens;
`json.loads` runs before any browser interaction and its parse failure is an
uncaught exception (the script crashes with no browser launched); otherwise
the browser is launched and the person loop runs.  After a fatal stop the
browser is already closed and `main` returns; after a clean loop the script
waits at the interactive prompt and closes the browser; a propagating
exception leaves `main` uncaught. -/
def mainProg (w : World) : List Event × Option Exn :=
  if w.fileExists then
    match w.parsed with
    | .error m => ([], some (.otherE m))
    | .ok people =>
      match processPeople w people 1 with
      | (es, none) =>
        (Event.launchBrowser :: es ++
          [Event.promptUser, Event.info closingMsg, Event.closeBrowser], none)
      | (es, some .fatalStop) => (Event.launchBrowser :: es, none)
      | (es, some (.raised e)) => (Event.launchBrowser :: es, some e)
  else
    ([Event.errMsg fileMissingMsg], none)

/-! ### The fixed page order, for the orchestration claim -/

/-- The two fill strategies used on pages 2–8. -/
inductive PageKind where
  | matrix
  | labelClick
deriving DecidableEq, Repr

/-- The fixed order of strategies for pages 2–8. -/
def pageOrder : List PageKind :=
  [.matrix, .matrix, .matrix, .labelClick, .matrix, .labelClick, .matrix]

/-- The events of the fill strategy of kind `k` on page slot `slot`. -/
def stratTrace (k : PageKind) (pw : PersonWorld) (slot : Nat) : List Event :=
  match k with
  | .matrix =>
    (fillRadioMatrixPage (pw.page slot) (pw.env slot) (pw.rand slot)
      pw.enumOrd).1
  | .labelClick => (fillPage5or7 (pw.page slot) (pw.env slot) (pw.rand slot)).1

/-! ### Event predicates and concrete instances used in the theorems -/

/-- Is this event a `page.check` on a radio of group `n`? -/
def isCheckOf (n : String) : Event → Bool
  | .checkAct m _ => m == n
  | _ => false

/-- Is this event a `page.check` at all? -/
def isCheckE : Event → Bool
  | .checkAct _ _ => true
  | _ => false

/-- Is this event a `page.click` on a label? -/
def isClickLab : Event → Bool
  | .clickLabelAct _ => true
  | _ => false

/-- Is this event a `page.fill`? -/
def isFillE : Event → Bool
  | .fillAct _ _ => true
  | _ => false

/-- Is this event a `page.select_option`? -/
def isSelectE : Event → Bool
  | .selectAct _ _ => true
  | _ => false

/-- Is this event a `query_selector` on a select control? -/
def isQuerySelectE : Event → Bool
  | .querySelect _ => true
  | _ => false

/-- Is this event a `[WARNING]` console line? -/
def isWarnE : Event → Bool
  | .warnMsg _ => true
  | _ => false

/-- Is this event an `[ERROR]` console line? -/
def isErrE : Event → Bool
  | .errMsg _ => true
  | _ => false

/-- An environment in which every driver action succeeds. -/
def envOk : Env :=
  { fillRes := fun _ _ => .ok
    selectRes := fun _ _ => .ok
    checkRes := fun _ _ => .ok
    labelClickRes := fun _ => .ok
    submitRes := .ok }

/-- The constant-zero random stream. -/
def rand0 : Nat → Nat := fun _ => 0

/-- The set-enumeration oracle that happens to use insertion order. -/
def enumId : String → List String → List String := fun _ l => l

/-- The set-enumeration oracle that enumerates each set in reverse: equally
faithful to Python (iteration order of a `set` of strings is unspecified and
varies with the per-process string hash seed). -/
def enumRev : String → List String → List String := fun _ l => l.reverse

/-- A concrete matrix page: one group `q1` with value set `{1, 2}`. -/
def pgMatrixW : PageModel :=
  { textFields := []
    selectFields := []
    radios := [⟨some "q1", some "1", none⟩, ⟨some "q1", some "2", none⟩]
    labelIds := []
    radioAppears := true }

/-- A concrete label-click page: one group `q` with two options sharing the
value `1` but carrying distinct ids, and both labels present. -/
def pgLabelW : PageModel :=
  { textFields := []
    selectFields := []
    radios := [⟨some "q", some "1", some "r1"⟩, ⟨some "q", some "1", some "r2"⟩]
    labelIds := ["r1", "r2"]
    radioAppears := true }

/-- A page with no radio appearing within the wait bound. -/
def pgNoRadio : PageModel :=
  { textFields := []
    selectFields := []
    radios := []
    labelIds := []
    radioAppears := false }

/-- A concrete page-1: text inputs for `element_2` and `element_3`. -/
def pgFormW : PageModel :=
  { textFields := ["element_2", "element_3"]
    selectFields := []
    radios := []
    labelIds := []
    radioAppears := false }

/-- The code's filter for the matrix grouping: a radio is entered into the
group map iff its name and value attributes are present and non-empty. -/
def matrixKeep (e : RadioElem) : Bool :=
  truthy e.name && truthy e.value

/-- The code's filter for the label-click grouping: name, value and id must
all be present and non-empty. -/
def labelKeep (e : RadioElem) : Bool :=
  truthy e.name && truthy e.value && truthy e.id

/-- The same page with a different radio list. -/
def PageModel.withRadios (page : PageModel) (rs : List RadioElem) :
    PageModel :=
  { page with radios := rs }

/-- An environment whose Continue/Submit click raises a non-timeout
exception (e.g. the target page was closed under the driver). -/
def envBadSubmit : Env := { envOk with submitRes := .exn "target closed" }

/-- An environment whose Continue/Submit click times out. -/
def envTimeoutSubmit : Env := { envOk with submitRes := .timeoutErr }

/-- An environment whose label click raises an exception. -/
def envBadLabel : Env :=
  { envOk with labelClickRes := fun _ => .exn "element detached" }

/-- A one-field person record. -/
def personW : Person := [("element_2", Scalar.s "Ali")]

/-- A two-field person record matching `pgFormW`. -/
def personW2 : Person :=
  [("element_2", Scalar.s "Ali"), ("element_3", Scalar.s "Rezaei")]

/-- A per-person world where everything succeeds. -/
def pwW : PersonWorld :=
  { gotoRes := .ok
    containerOk := true
    page := fun _ => pgMatrixW
    env := fun _ => envOk
    rand := fun _ _ => 0
    enumOrd := enumId }

/-- A per-person world whose page-1 container never appears. -/
def pwNoContainer : PersonWorld := { pwW with containerOk := false }

/-- A per-person world whose Continue clicks raise non-timeout exceptions. -/
def pwBadSubmit : PersonWorld := { pwW with env := fun _ => envBadSubmit }

/-- World: the data file is missing. -/
def wNoFile : World := { fileExists := false, parsed := .ok [], pw := fun _ => pwW }

/-- World: the data file exists but its contents are not valid JSON. -/
def wBadJson : World :=
  { fileExists := true, parsed := .error "Expecting value", pw := fun _ => pwW }

/-- World: two records, and the page-1 container never appears. -/
def wNoContainer : World :=
  { fileExists := true
    parsed := .ok [personW, personW]
    pw := fun _ => pwNoContainer }

/-- A page mixing valid radios with radios lacking attributes. -/
def pgMixedW : PageModel :=
  { textFields := []
    selectFields := []
    radios := [⟨some "q1", some "1", some "a1"⟩, ⟨none, some "9", some "x"⟩,
      ⟨some "q1", none, some "a2"⟩, ⟨some "q1", some "2", some "a3"⟩,
      ⟨some "", some "3", none⟩]
    labelIds := ["a1", "a2", "a3"]
    radioAppears := true }

/-- A page all of whose radios lack a usable name, value or id. -/
def pgInvalidW : PageModel :=
  { textFields := []
    selectFields := []
    radios := [⟨none, some "1", none⟩, ⟨some "g", none, some "x"⟩,
      ⟨some "", some "2", some ""⟩]
    labelIds := []
    radioAppears := true }

/-! ### Lemmas about the grouping maps -/

theorem lookupG_upsert (comb : List α → α → List α)
    (gs : List (String × List α)) (n : String) (v : α) (m : String) :
    lookupG (upsert comb gs n v) m =
      if m = n then some (comb ((lookupG gs n).getD []) v)
      else lookupG gs m := by
  induction gs with
  | nil =>
    by_cases hmn : m = n
    · subst hmn; simp [upsert, lookupG]
    · simp [upsert, lookupG, hmn, show ¬n = m from fun h => hmn h.symm]
  | cons head rest ih =>
    obtain ⟨k, ws⟩ := head
    by_cases hkn : k = n
    · subst hkn
      by_cases hmk : m = k
      · subst hmk; simp [upsert, lookupG]
      · simp [upsert, lookupG, hmk, show ¬k = m from fun h => hmk h.symm]
    · by_cases hmn : m = n
      · subst hmn
        simp [upsert, lookupG, hkn, show ¬k = m from hkn, ih]
      · by_cases hkm : k = m
        · subst hkm
          simp [upsert, lookupG, hkn, hmn]
        · simp [upsert, lookupG, hkn, hkm, hmn, ih]

theorem lookupG_mem {gs : List (String × List α)} {n : String} {ws : List α}
    (h : lookupG gs n = some ws) : (n, ws) ∈ gs := by
  induction gs with
  | nil => simp [lookupG] at h
  | cons head rest ih =>
    obtain ⟨k, us⟩ := head
    by_cases hkn : k = n
    · subst hkn
      simp [lookupG] at h
      simp [h]
    · simp [lookupG, hkn] at h
      exact List.mem_cons_of_mem _ (ih h)

theorem mem_lookupG {gs : List (String × List α)} {n : String} {ws : List α}
    (hnd : (gs.map Prod.fst).Nodup) (h : (n, ws) ∈ gs) :
    lookupG gs n = some ws := by
  induction gs with
  | nil => simp at h
  | cons head rest ih =>
    obtain ⟨k, us⟩ := head
    simp only [List.map_cons, List.nodup_cons] at hnd
    rcases List.mem_cons.mp h with heq | hmem
    · cases heq; simp [lookupG]
    · have hkn : k ≠ n := by
        intro he; subst he
        exact hnd.1 (List.mem_map.mpr ⟨(k, ws), hmem, rfl⟩)
      simp [lookupG, hkn, ih hnd.2 hmem]

theorem upsert_keys (comb : List α → α → List α)
    (gs : List (String × List α)) (n : String) (v : α) :
    (upsert comb gs n v).map Prod.fst =
      if n ∈ gs.map Prod.fst then gs.map Prod.fst
      else gs.map Prod.fst ++ [n] := by
  induction gs with
  | nil => simp [upsert]
  | cons head rest ih =>
    obtain ⟨k, ws⟩ := head
    by_cases hkn : k = n
    · subst hkn; simp [upsert]
    · by_cases hin : n ∈ rest.map Prod.fst <;>
        simp [upsert, hkn, ih, hin, show ¬n = k from fun h => hkn h.symm]

theorem upsert_keys_nodup (comb : List α → α → List α)
    {gs : List (String × List α)} (n : String) (v : α)
    (hnd : (gs.map Prod.fst).Nodup) :
    ((upsert comb gs n v).map Prod.fst).Nodup := by
  rw [upsert_keys]
  by_cases hin : n ∈ gs.map Prod.fst
  · simpa [hin]
  · simpa [hin, List.nodup_append] using hnd

/-! ### Lemmas about list indexing (`random.choice` picks an index) -/

theorem getD_mem {l : List α} (d : α) (h : l ≠ []) (r : Nat) :
    l.getD (r % l.length) d ∈ l := by
  have hlen : 0 < l.length := List.length_pos.mpr h
  have hlt : r % l.length < l.length := Nat.mod_lt _ hlen
  rw [List.getD_eq_getElem?_getD, List.getElem?_eq_getElem hlt]
  exact List.getElem_mem hlt

theorem getD_surj {l : List α} (d : α) {v : α} (hv : v ∈ l) :
    ∃ j, j < l.length ∧ l.getD j d = v := by
  induction l with
  | nil => simp at hv
  | cons a rest ih =>
    rcases List.mem_cons.mp hv with rfl | hmem
    · exact ⟨0, by simp, rfl⟩
    · obtain ⟨j, hj, he⟩ := ih hmem
      exact ⟨j + 1, by simpa using hj, he⟩

theorem nodup_getD_inj {l : List α} (d : α) (hnd : l.Nodup)
    {i j : Nat} (hi : i < l.length) (hj : j < l.length)
    (h : l.getD i d = l.getD j d) : i = j := by
  rw [List.getD_eq_getElem?_getD, List.getElem?_eq_getElem hi,
    List.getD_eq_getElem?_getD, List.getElem?_eq_getElem hj,
    Option.getD_some, Option.getD_some] at h
  exact (List.Nodup.getElem_inj_iff hnd).mp h

/-! ### Invariants of the two group maps -/

theorem addValue_mem {l : List String} {v u : String} :
    u ∈ addValue l v ↔ u ∈ l ∨ u = v := by
  by_cases hv : v ∈ l
  · constructor
    · intro h; exact Or.inl (by simpa [addValue, hv] using h)
    · rintro (h | rfl) <;> simp [addValue, hv, *]
  · simp [addValue, hv]

theorem addValue_ne_nil {l : List String} {v : String} : addValue l v ≠ [] := by
  by_cases hv : v ∈ l
  · simp [addValue, hv]; rintro rfl; simp at hv
  · simp [addValue, hv]

theorem addValue_nodup {l : List String} {v : String} (h : l.Nodup) :
    (addValue l v).Nodup := by
  by_cases hv : v ∈ l
  · simpa [addValue, hv] using h
  · simpa [addValue, hv, List.nodup_append] using h

/-- A radio with this name and value attribute was discovered on the page. -/
def srcMatrix (radios : List RadioElem) (n v : String) : Prop :=
  ∃ e ∈ radios, e.name = some n ∧ e.value = some v

/-- A radio with this name, value and id attribute was discovered. -/
def srcPair (radios : List RadioElem) (n v i : String) : Prop :=
  ∃ e ∈ radios, e.name = some n ∧ e.value = some v ∧ e.id = some i

/-- Everything the matrix filler's group map guarantees: group names are
distinct (`dict` keys) and non-empty, each value set is non-empty,
duplicate-free, and consists of non-empty values carried by discovered
radios. -/
def MatrixInv (radios : List RadioElem)
    (gs : List (String × List String)) : Prop :=
  (gs.map Prod.fst).Nodup ∧
  ∀ n vs, (n, vs) ∈ gs → n ≠ "" ∧ vs ≠ [] ∧ vs.Nodup ∧
    ∀ v ∈ vs, v ≠ "" ∧ srcMatrix radios n v

theorem matrixInv_upsert {radios : List RadioElem}
    {gs : List (String × List String)} {n v : String}
    (hinv : MatrixInv radios gs) (hn : n ≠ "") (hv : v ≠ "")
    (hsrc : srcMatrix radios n v) :
    MatrixInv radios (upsert addValue gs n v) := by
  obtain ⟨hnd, hprop⟩ := hinv
  have hnd2 := upsert_keys_nodup addValue n v hnd
  refine ⟨hnd2, fun m ws hmem => ?_⟩
  have hlook := mem_lookupG hnd2 hmem
  rw [lookupG_upsert] at hlook
  by_cases hmn : m = n
  · subst hmn
    rw [if_pos rfl] at hlook
    injection hlook with hlook
    subst hlook
    rcases hcase : lookupG gs m with _ | old
    · refine ⟨hn, addValue_ne_nil, ?_, ?_⟩
      · simp [hcase, addValue_nodup, List.nodup_nil]
      · intro u hu
        rcases addValue_mem.mp (by simpa [hcase] using hu) with h | rfl
        · simp at h
        · exact ⟨hv, hsrc⟩
    · have hold := hprop m old (lookupG_mem hcase)
      refine ⟨hn, addValue_ne_nil, ?_, ?_⟩
      · simpa [hcase] using addValue_nodup hold.2.2.1
      · intro u hu
        rcases addValue_mem.mp (by simpa [hcase] using hu) with h | rfl
        · exact hold.2.2.2 u h
        · exact ⟨hv, hsrc⟩
  · rw [if_neg hmn] at hlook
    exact hprop m ws (lookupG_mem hlook)

theorem matrixInv_buildGroupsAux {radios : List RadioElem} :
    ∀ (l : List RadioElem) (gs : List (String × List String)),
    (∀ e ∈ l, e ∈ radios) → MatrixInv radios gs →
    MatrixInv radios (buildGroupsAux gs l) := by
  intro l
  induction l with
  | nil => intro gs _ hinv; simpa [buildGroupsAux] using hinv
  | cons e rest ih =>
    intro gs hsub hinv
    have hrest : ∀ x ∈ rest, x ∈ radios :=
      fun x hx => hsub x (List.mem_cons_of_mem _ hx)
    by_cases hval : (truthy e.name && truthy e.value) = true
    · have he : e ∈ radios := hsub e (List.mem_cons_self e rest)
      obtain ⟨hn, hv⟩ := Bool.and_eq_true_iff.mp hval
      obtain ⟨ns, hns⟩ : ∃ s, e.name = some s := by
        cases h : e.name
        · rw [h] at hn; simp [truthy] at hn
        · exact ⟨_, rfl⟩
      obtain ⟨vs, hvs⟩ : ∃ s, e.value = some s := by
        cases h : e.value
        · rw [h] at hv; simp [truthy] at hv
        · exact ⟨_, rfl⟩
      have hns' : ns ≠ "" := by
        rw [hns] at hn; simpa [truthy] using hn
      have hvs' : vs ≠ "" := by
        rw [hvs] at hv; simpa [truthy] using hv
      have hup : MatrixInv radios
          (upsert addValue gs (e.name.getD "") (e.value.getD "")) := by
        rw [hns, hvs]
        exact matrixInv_upsert hinv hns' hvs' ⟨e, he, hns, hvs⟩
      show MatrixInv radios (buildGroupsAux
        (if (truthy e.name && truthy e.value) = true then
          upsert addValue gs (e.name.getD "") (e.value.getD "") else gs) rest)
      rw [if_pos hval]
      exact ih _ hrest hup
    · show MatrixInv radios (buildGroupsAux
        (if (truthy e.name && truthy e.value) = true then
          upsert addValue gs (e.name.getD "") (e.value.getD "") else gs) rest)
      rw [if_neg hval]
      exact ih _ hrest hinv

/-- The matrix filler's group map satisfies its invariant. -/
theorem matrixInv_buildGroups (radios : List RadioElem) :
    MatrixInv radios (buildGroups radios) :=
  matrixInv_buildGroupsAux radios [] (fun _ h => h)
    ⟨List.nodup_nil, fun n vs h => by simp at h⟩

/-- Everything the label filler's group map guarantees: distinct non-empty
group names, non-empty option lists, each (value, id) pair carried by a
discovered radio with non-empty attributes. -/
def PairInv (radios : List RadioElem)
    (gs : List (String × List (String × String))) : Prop :=
  (gs.map Prod.fst).Nodup ∧
  ∀ n opts, (n, opts) ∈ gs → n ≠ "" ∧ opts ≠ [] ∧
    ∀ p ∈ opts, p.1 ≠ "" ∧ p.2 ≠ "" ∧ srcPair radios n p.1 p.2

theorem pairInv_upsert {radios : List RadioElem}
    {gs : List (String × List (String × String))} {n : String}
    {p : String × String}
    (hinv : PairInv radios gs) (hn : n ≠ "") (hv : p.1 ≠ "") (hi : p.2 ≠ "")
    (hsrc : srcPair radios n p.1 p.2) :
    PairInv radios (upsert (fun ws q => ws ++ [q]) gs n p) := by
  obtain ⟨hnd, hprop⟩ := hinv
  have hnd2 := upsert_keys_nodup (fun ws q => ws ++ [q]) n p hnd
  refine ⟨hnd2, fun m ws hmem => ?_⟩
  have hlook := mem_lookupG hnd2 hmem
  rw [lookupG_upsert] at hlook
  by_cases hmn : m = n
  · subst hmn
    rw [if_pos rfl] at hlook
    injection hlook with hlook
    subst hlook
    rcases hcase : lookupG gs m with _ | old
    · refine ⟨hn, by simp [hcase], ?_⟩
      intro q hq
      rcases (by simpa [hcase] using hq : q ∈ ([] : List (String × String)) ∨ q = p) with h | rfl
      · simp at h
      · exact ⟨hv, hi, hsrc⟩
    · have hold := hprop m old (lookupG_mem hcase)
      refine ⟨hn, by simp [hcase], ?_⟩
      intro q hq
      rcases (by simpa [hcase] using hq : q ∈ old ∨ q = p) with h | rfl
      · exact hold.2.2 q h
      · exact ⟨hv, hi, hsrc⟩
  · rw [if_neg hmn] at hlook
    exact hprop m ws (lookupG_mem hlook)

theorem pairInv_buildPairGroupsAux {radios : List RadioElem} :
    ∀ (l : List RadioElem) (gs : List (String × List (String × String))),
    (∀ e ∈ l, e ∈ radios) → PairInv radios gs →
    PairInv radios (buildPairGroupsAux gs l) := by
  intro l
  induction l with
  | nil => intro gs _ hinv; simpa [buildPairGroupsAux] using hinv
  | cons e rest ih =>
    intro gs hsub hinv
    have hrest : ∀ x ∈ rest, x ∈ radios :=
      fun x hx => hsub x (List.mem_cons_of_mem _ hx)
    by_cases hval : (truthy e.name && truthy e.value && truthy e.id) = true
    · have he : e ∈ radios := hsub e (List.mem_cons_self e rest)
      obtain ⟨hnv, hid⟩ := Bool.and_eq_true_iff.mp hval
      obtain ⟨hn, hv⟩ := Bool.and_eq_true_iff.mp hnv
      obtain ⟨ns, hns⟩ : ∃ s, e.name = some s := by
        cases h : e.name
        · rw [h] at hn; simp [truthy] at hn
        · exact ⟨_, rfl⟩
      obtain ⟨vs, hvs⟩ : ∃ s, e.value = some s := by
        cases h : e.value
        · rw [h] at hv; simp [truthy] at hv
        · exact ⟨_, rfl⟩
      obtain ⟨is, his⟩ : ∃ s, e.id = some s := by
        cases h : e.id
        · rw [h] at hid; simp [truthy] at hid
        · exact ⟨_, rfl⟩
      have hns' : ns ≠ "" := by rw [hns] at hn; simpa [truthy] using hn
      have hvs' : vs ≠ "" := by rw [hvs] at hv; simpa [truthy] using hv
      have his' : is ≠ "" := by rw [his] at hid; simpa [truthy] using hid
      have hup : PairInv radios (upsert (fun ws q => ws ++ [q]) gs
          (e.name.getD "") (e.value.getD "", e.id.getD "")) := by
        rw [hns, hvs, his]
        exact pairInv_upsert hinv hns' hvs' his' ⟨e, he, hns, hvs, his⟩
      show PairInv radios (buildPairGroupsAux
        (if (truthy e.name && truthy e.value && truthy e.id) = true then
          upsert (fun ws p => ws ++ [p]) gs (e.name.getD "")
            (e.value.getD "", e.id.getD "") else gs) rest)
      rw [if_pos hval]
      exact ih _ hrest hup
    · show PairInv radios (buildPairGroupsAux
        (if (truthy e.name && truthy e.value && truthy e.id) = true then
          upsert (fun ws p => ws ++ [p]) gs (e.name.getD "")
            (e.value.getD "", e.id.getD "") else gs) rest)
      rw [if_neg hval]
      exact ih _ hrest hinv

/-- The label filler's group map satisfies its invariant. -/
theorem pairInv_buildPairGroups (radios : List RadioElem) :
    PairInv radios (buildPairGroups radios) :=
  pairInv_buildPairGroupsAux radios [] (fun _ h => h)
    ⟨List.nodup_nil, fun n opts h => by simp at h⟩

/-! ### Trace lemmas for the matrix filler -/

/-- The chosen value of a group comes from its value set whenever the
enumeration oracle returns a permutation of the set's content. -/
theorem chosenValue_mem {enumOrd : String → List String → List String}
    {n : String} {vs : List String} (hvs : vs ≠ [])
    (hperm : (enumOrd n vs).Perm vs) (r : Nat) :
    chosenValue enumOrd n vs r ∈ vs := by
  have hne : enumOrd n vs ≠ [] := by
    intro h
    rw [h] at hperm
    exact hvs (hperm.symm.eq_nil)
  exact hperm.mem_iff.mp (getD_mem "" hne r)

/-- A discovered name+value pair is found by
`query_selector('input[name=..][value=..]')`. -/
theorem pageHasRadio_of_src {page : PageModel} {n v : String}
    (h : srcMatrix page.radios n v) : pageHasRadio page n v = true := by
  obtain ⟨e, he, hn, hv⟩ := h
  simp only [pageHasRadio, List.any_eq_true]
  exact ⟨e, he, by simp [hn, hv]⟩

/-- A group whose chosen value is found on the page produces exactly one
check action (for that group). -/
theorem matrixGroupStep_countP_self {page : PageModel} {env : Env}
    {enumOrd : String → List String → List String} {n : String}
    {vs : List String} {r : Nat}
    (h : pageHasRadio page n (chosenValue enumOrd n vs r) = true) :
    (matrixGroupStep page env enumOrd n vs r).countP (isCheckOf n) = 1 := by
  rcases henv : env.checkRes n (chosenValue enumOrd n vs r) with _ | _ | m <;>
    simp [matrixGroupStep, h, tryAllE, rawAct, henv, isCheckOf,
      List.countP_cons, List.countP_nil]

/-- A group step never issues a check for a different group. -/
theorem matrixGroupStep_countP_other {page : PageModel} {env : Env}
    {enumOrd : String → List String → List String} {m n : String}
    {vs : List String} {r : Nat} (hmn : m ≠ n) :
    (matrixGroupStep page env enumOrd n vs r).countP (isCheckOf m) = 0 := by
  have hb : (n == m) = false := beq_eq_false_iff_ne.mpr (fun h => hmn h.symm)
  by_cases h : pageHasRadio page n (chosenValue enumOrd n vs r) = true
  · rcases henv : env.checkRes n (chosenValue enumOrd n vs r) with _ | _ | s <;>
      simp [matrixGroupStep, h, tryAllE, rawAct, henv, isCheckOf, hb,
        List.countP_cons, List.countP_nil]
  · simp only [Bool.not_eq_true] at h
    simp [matrixGroupStep, h, isCheckOf, List.countP_cons, List.countP_nil]

/-- Any check event of a group step checks that group's chosen value. -/
theorem checkAct_mem_matrixGroupStep {page : PageModel} {env : Env}
    {enumOrd : String → List String → List String} {m n v : String}
    {vs : List String} {r : Nat}
    (h : Event.checkAct m v ∈ matrixGroupStep page env enumOrd n vs r) :
    m = n ∧ v = chosenValue enumOrd n vs r := by
  by_cases hq : pageHasRadio page n (chosenValue enumOrd n vs r) = true
  · rcases henv : env.checkRes n (chosenValue enumOrd n vs r) with _ | _ | s <;>
      · rw [matrixGroupStep] at h
        simp [hq, tryAllE, rawAct, henv] at h
        exact h
  · simp only [Bool.not_eq_true] at hq
    rw [matrixGroupStep] at h
    simp [hq] at h

/-- If the chosen value is on the page, the group step contains its check. -/
theorem checkAct_in_matrixGroupStep {page : PageModel} {env : Env}
    {enumOrd : String → List String → List String} {n : String}
    {vs : List String} {r : Nat}
    (h : pageHasRadio page n (chosenValue enumOrd n vs r) = true) :
    Event.checkAct n (chosenValue enumOrd n vs r) ∈
      matrixGroupStep page env enumOrd n vs r := by
  rcases henv : env.checkRes n (chosenValue enumOrd n vs r) with _ | _ | m <;>
    simp [matrixGroupStep, h, tryAllE, rawAct, henv]

/-- No check for group `n` arises from groups with other names. -/
theorem matrixLoop_countP_notmem {page : PageModel} {env : Env}
    {enumOrd : String → List String → List String} {n : String} :
    ∀ (gs : List (String × List String)) (rand : Nat → Nat) (i : Nat),
    n ∉ gs.map Prod.fst →
    (matrixLoop page env enumOrd gs rand i).countP (isCheckOf n) = 0 := by
  intro gs
  induction gs with
  | nil => intro rand i _; simp [matrixLoop]
  | cons head rest ih =>
    intro rand i hn
    obtain ⟨k, ws⟩ := head
    simp only [List.map_cons, List.mem_cons, not_or] at hn
    rw [matrixLoop, List.countP_append,
      matrixGroupStep_countP_other (fun h => hn.1 h), ih rand (i + 1) hn.2]

/-- Under distinct group names, each group contributes exactly one check. -/
theorem matrixLoop_countP_mem {page : PageModel} {env : Env}
    {enumOrd : String → List String → List String} {n : String}
    {vs : List String} :
    ∀ (gs : List (String × List String)) (rand : Nat → Nat) (i : Nat),
    (gs.map Prod.fst).Nodup → (n, vs) ∈ gs →
    (∀ r, pageHasRadio page n (chosenValue enumOrd n vs r) = true) →
    (matrixLoop page env enumOrd gs rand i).countP (isCheckOf n) = 1 := by
  intro gs
  induction gs with
  | nil => intro rand i _ hmem _; simp at hmem
  | cons head rest ih =>
    intro rand i hnd hmem hpage
    obtain ⟨k, ws⟩ := head
    simp only [List.map_cons, List.nodup_cons] at hnd
    rcases List.mem_cons.mp hmem with heq | hmem2
    · rw [Prod.mk.injEq] at heq
      obtain ⟨rfl, rfl⟩ := heq
      rw [matrixLoop, List.countP_append,
        matrixGroupStep_countP_self (hpage (rand i)),
        matrixLoop_countP_notmem rest rand (i + 1) hnd.1]
    · have hkn : k ≠ n := by
        rintro rfl
        exact hnd.1 (List.mem_map.mpr ⟨(k, vs), hmem2, rfl⟩)
      rw [matrixLoop, List.countP_append,
        matrixGroupStep_countP_other (fun h => hkn h.symm),
        ih rand (i + 1) hnd.2 hmem2 hpage]

/-- Every check event in the loop checks some group's chosen value. -/
theorem checkAct_mem_matrixLoop {page : PageModel} {env : Env}
    {enumOrd : String → List String → List String} {m v : String} :
    ∀ (gs : List (String × List String)) (rand : Nat → Nat) (i : Nat),
    Event.checkAct m v ∈ matrixLoop page env enumOrd gs rand i →
    ∃ ws r, (m, ws) ∈ gs ∧ v = chosenValue enumOrd m ws r := by
  intro gs
  induction gs with
  | nil => intro rand i h; simp [matrixLoop] at h
  | cons head rest ih =>
    intro rand i h
    obtain ⟨k, ws⟩ := head
    rw [matrixLoop] at h
    rcases List.mem_append.mp h with h | h
    · obtain ⟨rfl, hv⟩ := checkAct_mem_matrixGroupStep h
      exact ⟨ws, rand i, List.mem_cons_self _ _, hv⟩
    · obtain ⟨ws2, r, hmem, hv⟩ := ih rand (i + 1) h
      exact ⟨ws2, r, List.mem_cons_of_mem _ hmem, hv⟩

/-- With a constant random stream, each group's step events occur in the
loop's trace. -/
theorem matrixGroupStep_sub_matrixLoop {page : PageModel} {env : Env}
    {enumOrd : String → List String → List String} {n : String}
    {vs : List String} {c : Nat} {ev : Event} :
    ∀ (gs : List (String × List String)) (i : Nat),
    (n, vs) ∈ gs → ev ∈ matrixGroupStep page env enumOrd n vs c →
    ev ∈ matrixLoop page env enumOrd gs (fun _ => c) i := by
  intro gs
  induction gs with
  | nil => intro i hmem _; simp at hmem
  | cons head rest ih =>
    intro i hmem hev
    obtain ⟨k, ws⟩ := head
    rw [matrixLoop]
    rcases List.mem_cons.mp hmem with heq | hmem2
    · rw [Prod.mk.injEq] at heq
      obtain ⟨rfl, rfl⟩ := heq
      exact List.mem_append.mpr (Or.inl hev)
    · exact List.mem_append.mpr (Or.inr (ih (i + 1) hmem2 hev))

/-- When the wait succeeds, the matrix filler's trace is the wait followed by
the group loop. -/
theorem fillRadioMatrixPage_trace {page : PageModel} (env : Env)
    (rand : Nat → Nat) (enumOrd : String → List String → List String)
    (happ : page.radioAppears = true) :
    (fillRadioMatrixPage page env rand enumOrd).1 =
      Event.waitForSel radioAllSel ::
        matrixLoop page env enumOrd (buildGroups page.radios) rand 0 := by
  simp [fillRadioMatrixPage, happ]

/-- CLAIM C1.  For every radio group `(n, vs)` discovered by the Radio-Matrix
Filler (with `vs` the non-empty value set built from the page's radio
controls), and any faithful enumeration of the value sets, the filler's trace
contains exactly one check action for group `n`; every check action of group
`n` checks a value of `vs`; every value of `vs` is produced by some draw of
the random stream; and distinct draws below `|vs|` produce distinct values
(exactly one draw per value), i.e. the choice is uniform over the discovered
set, not over a fixed enumeration. -/
theorem claim1_radio_matrix_one_check (page : PageModel) (env : Env)
    (rand : Nat → Nat) (enumOrd : String → List String → List String)
    (happ : page.radioAppears = true)
    (henum : ∀ n l, (enumOrd n l).Perm l) :
    ∀ n vs, (n, vs) ∈ buildGroups page.radios →
      vs ≠ [] ∧
      (fillRadioMatrixPage page env rand enumOrd).1.countP (isCheckOf n) = 1 ∧
      (∀ v, Event.checkAct n v ∈ (fillRadioMatrixPage page env rand enumOrd).1 →
        v ∈ vs) ∧
      (∀ v ∈ vs, ∃ r, Event.checkAct n v ∈
        (fillRadioMatrixPage page env (fun _ => r) enumOrd).1) ∧
      (∀ v ∈ vs, ∃! k, k < vs.length ∧ chosenValue enumOrd n vs k = v) := by
  intro n vs hmem
  obtain ⟨hnd, hprop⟩ := matrixInv_buildGroups page.radios
  obtain ⟨hn, hvs, hnodup, hvals⟩ := hprop n vs hmem
  have hperm := henum n vs
  have hpage : ∀ r, pageHasRadio page n (chosenValue enumOrd n vs r) = true :=
    fun r => pageHasRadio_of_src (hvals _ (chosenValue_mem hvs hperm r)).2
  have hlen : (enumOrd n vs).length = vs.length := hperm.length_eq
  refine ⟨hvs, ?_, ?_, ?_, ?_⟩
  · rw [fillRadioMatrixPage_trace env rand enumOrd happ, List.countP_cons]
    simp only [isCheckOf, if_neg (by simp : ¬(false = true)), Nat.add_zero]
    exact matrixLoop_countP_mem _ rand 0 hnd hmem hpage
  · intro v hv
    rw [fillRadioMatrixPage_trace env rand enumOrd happ] at hv
    rcases List.mem_cons.mp hv with h | h
    · exact absurd h (by simp)
    · obtain ⟨ws, r, hmem2, rfl⟩ := checkAct_mem_matrixLoop _ rand 0 h
      have : ws = vs := by
        have h1 := mem_lookupG hnd hmem2
        have h2 := mem_lookupG hnd hmem
        rw [h1] at h2
        exact Option.some.injEq .. ▸ h2
      subst this
      exact chosenValue_mem hvs hperm r
  · intro v hv
    have hvl : v ∈ enumOrd n vs := hperm.mem_iff.mpr hv
    obtain ⟨j, hj, he⟩ := getD_surj "" hvl
    have hc : chosenValue enumOrd n vs j = v := by
      rw [chosenValue, Nat.mod_eq_of_lt hj]
      exact he
    refine ⟨j, ?_⟩
    rw [fillRadioMatrixPage_trace env (fun _ => j) enumOrd happ]
    refine List.mem_cons_of_mem _ ?_
    have := @checkAct_in_matrixGroupStep page env enumOrd n vs j (hpage j)
    rw [hc] at this
    exact matrixGroupStep_sub_matrixLoop _ 0 hmem this
  · intro v hv
    have hvl : v ∈ enumOrd n vs := hperm.mem_iff.mpr hv
    obtain ⟨j, hj, he⟩ := getD_surj "" hvl
    have hc : chosenValue enumOrd n vs j = v := by
      rw [chosenValue, Nat.mod_eq_of_lt hj]
      exact he
    have hnd2 : (enumOrd n vs).Nodup := hperm.nodup_iff.mpr hnodup
    refine ⟨j, ⟨hlen ▸ hj, hc⟩, ?_⟩
    rintro k ⟨hk, hck⟩
    have hk2 : k < (enumOrd n vs).length := hlen ▸ hk
    rw [chosenValue, Nat.mod_eq_of_lt hk2] at hck
    exact nodup_getD_inj "" hnd2 hk2 hj (hck.trans he.symm)

/-- Witness for C1 at a concrete page with one group of two values. -/
theorem claim1_radio_matrix_one_check_witness :
    pgMatrixW.radioAppears = true ∧ (∀ n l, (enumId n l).Perm l) ∧
    ∀ n vs, (n, vs) ∈ buildGroups pgMatrixW.radios →
      vs ≠ [] ∧
      (fillRadioMatrixPage pgMatrixW envOk rand0 enumId).1.countP
        (isCheckOf n) = 1 ∧
      (∀ v, Event.checkAct n v ∈
        (fillRadioMatrixPage pgMatrixW envOk rand0 enumId).1 → v ∈ vs) ∧
      (∀ v ∈ vs, ∃ r, Event.checkAct n v ∈
        (fillRadioMatrixPage pgMatrixW envOk (fun _ => r) enumId).1) ∧
      (∀ v ∈ vs, ∃! k, k < vs.length ∧ chosenValue enumId n vs k = v) :=
  ⟨rfl, fun _ l => List.Perm.refl l,
    claim1_radio_matrix_one_check pgMatrixW envOk rand0 enumId rfl
      (fun _ l => List.Perm.refl l)⟩

/-- CLAIM C7.  If no radio-type control appears within the bounded wait,
both fillers return normally having performed nothing but the wait: no
query, no check, no click, no console output. -/
theorem claim7_no_radio_noop (pageM pageL : PageModel) (envM envL : Env)
    (randM randL : Nat → Nat)
    (enumOrd : String → List String → List String)
    (hm : pageM.radioAppears = false) (hl : pageL.radioAppears = false) :
    fillRadioMatrixPage pageM envM randM enumOrd =
      ([Event.waitForSel radioAllSel], none) ∧
    fillPage5or7 pageL envL randL = ([Event.waitForSel radioAllSel], none) := by
  constructor
  · simp [fillRadioMatrixPage, hm]
  · simp [fillPage5or7, hl]

/-- Witness for C7 at the concrete radio-free page. -/
theorem claim7_no_radio_noop_witness :
    pgNoRadio.radioAppears = false ∧
    fillRadioMatrixPage pgNoRadio envOk rand0 enumId =
      ([Event.waitForSel radioAllSel], none) ∧
    fillPage5or7 pgNoRadio envOk rand0 = ([Event.waitForSel radioAllSel], none) :=
  ⟨rfl, claim7_no_radio_noop pgNoRadio pgNoRadio envOk envOk rand0 rand0
    enumId rfl rfl⟩

/-! ### Trace lemmas for the label-click filler -/

/-- The pair chosen for a non-empty option list is one of its options. -/
theorem pairChosen_mem {opts : List (String × String)} (h : opts ≠ [])
    (r : Nat) : pairChosen opts r ∈ opts :=
  getD_mem ("", "") h r

/-- Each option of a group is chosen by some draw. -/
theorem pairChosen_surj {opts : List (String × String)}
    {p : String × String} (hp : p ∈ opts) : ∃ r, pairChosen opts r = p := by
  obtain ⟨j, hj, he⟩ := getD_surj ("", "") hp
  exact ⟨j, by rw [pairChosen, Nat.mod_eq_of_lt hj]; exact he⟩

/-- Every group step performs exactly one label click or one warning. -/
theorem labelStep_attempt_count (page : PageModel) (env : Env)
    (opts : List (String × String)) (r : Nat) :
    (labelStep page env opts r).countP
      (fun ev => isClickLab ev || isWarnE ev) = 1 := by
  by_cases h : pageHasLabel page (pairChosen opts r).2 = true
  · rcases henv : env.labelClickRes (pairChosen opts r).2 with _ | _ | m <;>
      simp [labelStep, h, tryAllE, rawAct, henv, isClickLab, isWarnE,
        List.countP_cons, List.countP_nil]
  · simp only [Bool.not_eq_true] at h
    simp [labelStep, h, isClickLab, isWarnE, List.countP_cons,
      List.countP_nil]

/-- Any label click of a group step clicks the chosen id of a present
label. -/
theorem clickLabel_mem_labelStep {page : PageModel} {env : Env}
    {opts : List (String × String)} {r : Nat} {i : String}
    (h : Event.clickLabelAct i ∈ labelStep page env opts r) :
    i = (pairChosen opts r).2 ∧ pageHasLabel page i = true := by
  by_cases hq : pageHasLabel page (pairChosen opts r).2 = true
  · rcases henv : env.labelClickRes (pairChosen opts r).2 with _ | _ | m <;>
      · rw [labelStep] at h
        simp [hq, tryAllE, rawAct, henv] at h
        subst h
        exact ⟨rfl, hq⟩
  · simp only [Bool.not_eq_true] at hq
    rw [labelStep] at h
    simp [hq] at h

/-- The whole label loop performs exactly one click-or-warning per group. -/
theorem labelLoop_attempt_count (page : PageModel) (env : Env) :
    ∀ (gs : List (String × List (String × String))) (rand : Nat → Nat)
      (i : Nat),
    (labelLoop page env gs rand i).countP
      (fun ev => isClickLab ev || isWarnE ev) = gs.length := by
  intro gs
  induction gs with
  | nil => intro rand i; simp [labelLoop]
  | cons head rest ih =>
    intro rand i
    obtain ⟨k, opts⟩ := head
    rw [labelLoop, List.countP_append, labelStep_attempt_count,
      ih rand (i + 1), List.length_cons, Nat.add_comm]

/-- Any label click of the loop clicks a chosen id of some group. -/
theorem clickLabel_mem_labelLoop {page : PageModel} {env : Env} {i : String} :
    ∀ (gs : List (String × List (String × String))) (rand : Nat → Nat)
      (j : Nat),
    Event.clickLabelAct i ∈ labelLoop page env gs rand j →
    pageHasLabel page i = true ∧
      ∃ n opts r, (n, opts) ∈ gs ∧ (pairChosen opts r).2 = i := by
  intro gs
  induction gs with
  | nil => intro rand j h; simp [labelLoop] at h
  | cons head rest ih =>
    intro rand j h
    obtain ⟨k, opts⟩ := head
    rw [labelLoop] at h
    rcases List.mem_append.mp h with h | h
    · obtain ⟨rfl, hlab⟩ := clickLabel_mem_labelStep h
      exact ⟨hlab, k, opts, rand j, List.mem_cons_self _ _, rfl⟩
    · obtain ⟨hlab, n, opts2, r, hmem, he⟩ := ih rand (j + 1) h
      exact ⟨hlab, n, opts2, r, List.mem_cons_of_mem _ hmem, he⟩

/-- When the wait succeeds, the label filler's trace is the wait followed by
the group loop. -/
theorem fillPage5or7_trace {page : PageModel} (env : Env) (rand : Nat → Nat)
    (happ : page.radioAppears = true) :
    (fillPage5or7 page env rand).1 =
      Event.waitForSel radioAllSel ::
        labelLoop page env (buildPairGroups page.radios) rand 0 := by
  simp [fillPage5or7, happ]

/-- Counterexample to C6 as stated: on a concrete page whose chosen label
click raises an exception, the Label-Click Filler logs an `[ERROR]` line and
no `[WARNING]` line (the claim says a click exception produces a warning);
there is still no failure. -/
theorem claim6_warning_counterexample :
    (fillPage5or7 pgLabelW envBadLabel rand0).2 = none ∧
    (fillPage5or7 pgLabelW envBadLabel rand0).1.countP isWarnE = 0 ∧
    (fillPage5or7 pgLabelW envBadLabel rand0).1.countP isErrE = 1 := by
  decide

/-- CLAIM C6 (amended: a click exception is logged as an `[ERROR]`, not a
`[WARNING]`).  The Label-Click Filler never raises; it groups discovered
radios by name into (value, identifier) tuples each carried by a discovered
radio; it performs exactly one label click or warning per group; every label
click is on a present label keyed by the identifier of one of the group's
(value, identifier) pairs; every pair is chosen by some draw (uniform choice
over the discovered pairs); a missing label yields a `[WARNING]` and no
failure; a click exception yields an `[ERROR]` line and no failure. -/
theorem claim6_label_filler_amended (page : PageModel) (env : Env)
    (rand : Nat → Nat) (happ : page.radioAppears = true) :
    (fillPage5or7 page env rand).2 = none ∧
    (∀ n opts, (n, opts) ∈ buildPairGroups page.radios →
      opts ≠ [] ∧ ∀ v i, (v, i) ∈ opts → srcPair page.radios n v i) ∧
    (fillPage5or7 page env rand).1.countP
      (fun ev => isClickLab ev || isWarnE ev) =
      (buildPairGroups page.radios).length ∧
    (∀ i, Event.clickLabelAct i ∈ (fillPage5or7 page env rand).1 →
      pageHasLabel page i = true ∧
      ∃ n opts v, (n, opts) ∈ buildPairGroups page.radios ∧ (v, i) ∈ opts) ∧
    (∀ n opts p, (n, opts) ∈ buildPairGroups page.radios → p ∈ opts →
      ∃ r, pairChosen opts r = p) ∧
    (∀ opts r, pageHasLabel page (pairChosen opts r).2 = false →
      labelStep page env opts r =
        [Event.queryLabel (pairChosen opts r).2,
         Event.warnMsg (labelMissingMsg (pairChosen opts r).2)]) ∧
    (∀ opts r m, pageHasLabel page (pairChosen opts r).2 = true →
      env.labelClickRes (pairChosen opts r).2 = .exn m →
      labelStep page env opts r =
        [Event.queryLabel (pairChosen opts r).2,
         Event.clickLabelAct (pairChosen opts r).2,
         Event.errMsg (labelClickErrMsg (pairChosen opts r).2 m)]) := by
  obtain ⟨hnd, hprop⟩ := pairInv_buildPairGroups page.radios
  refine ⟨?_, ?_, ?_, ?_, ?_, ?_, ?_⟩
  · simp [fillPage5or7, happ]
  · intro n opts hmem
    exact ⟨(hprop n opts hmem).2.1,
      fun v i hvi => ((hprop n opts hmem).2.2 (v, i) hvi).2.2⟩
  · rw [fillPage5or7_trace env rand happ, List.countP_cons]
    simp only [isClickLab, isWarnE, Bool.or_self,
      if_neg (by simp : ¬(false = true)), Nat.add_zero]
    exact labelLoop_attempt_count page env _ rand 0
  · intro i h
    rw [fillPage5or7_trace env rand happ] at h
    rcases List.mem_cons.mp h with h | h
    · exact absurd h (by simp)
    · obtain ⟨hlab, n, opts, r, hmem, he⟩ :=
        clickLabel_mem_labelLoop _ rand 0 h
      have hne := (hprop n opts hmem).2.1
      have hpmem := pairChosen_mem hne r
      refine ⟨hlab, n, opts, (pairChosen opts r).1, hmem, ?_⟩
      rw [← he]
      simpa using hpmem
  · intro n opts p _ hp
    exact pairChosen_surj hp
  · intro opts r hq
    simp [labelStep, hq]
  · intro opts r m hq henv
    simp [labelStep, hq, tryAllE, rawAct, henv, exnMsg]

/-- Witness for the amended C6 at the concrete label page (two options of
equal value and distinct ids). -/
theorem claim6_label_filler_amended_witness :
    pgLabelW.radioAppears = true ∧
    ((fillPage5or7 pgLabelW envOk rand0).2 = none ∧
    (∀ n opts, (n, opts) ∈ buildPairGroups pgLabelW.radios →
      opts ≠ [] ∧ ∀ v i, (v, i) ∈ opts → srcPair pgLabelW.radios n v i) ∧
    (fillPage5or7 pgLabelW envOk rand0).1.countP
      (fun ev => isClickLab ev || isWarnE ev) =
      (buildPairGroups pgLabelW.radios).length ∧
    (∀ i, Event.clickLabelAct i ∈ (fillPage5or7 pgLabelW envOk rand0).1 →
      pageHasLabel pgLabelW i = true ∧
      ∃ n opts v, (n, opts) ∈ buildPairGroups pgLabelW.radios ∧
        (v, i) ∈ opts) ∧
    (∀ n opts p, (n, opts) ∈ buildPairGroups pgLabelW.radios → p ∈ opts →
      ∃ r, pairChosen opts r = p) ∧
    (∀ opts r, pageHasLabel pgLabelW (pairChosen opts r).2 = false →
      labelStep pgLabelW envOk opts r =
        [Event.queryLabel (pairChosen opts r).2,
         Event.warnMsg (labelMissingMsg (pairChosen opts r).2)]) ∧
    (∀ opts r m, pageHasLabel pgLabelW (pairChosen opts r).2 = true →
      envOk.labelClickRes (pairChosen opts r).2 = .exn m →
      labelStep pgLabelW envOk opts r =
        [Event.queryLabel (pairChosen opts r).2,
         Event.clickLabelAct (pairChosen opts r).2,
         Event.errMsg (labelClickErrMsg (pairChosen opts r).2 m)])) :=
  ⟨rfl, claim6_label_filler_amended pgLabelW envOk rand0 rfl⟩

/-! ### Filtering out attribute-less radios (C10) -/

theorem buildGroupsAux_filter :
    ∀ (l : List RadioElem) (gs : List (String × List String)),
    buildGroupsAux gs (l.filter matrixKeep) = buildGroupsAux gs l := by
  intro l
  induction l with
  | nil => intro gs; rfl
  | cons e rest ih =>
    intro gs
    by_cases hk : matrixKeep e = true
    · have hk2 : (truthy e.name && truthy e.value) = true := hk
      simp only [List.filter_cons, hk, if_true, buildGroupsAux, hk2]
      exact ih _
    · have hk2 : ¬((truthy e.name && truthy e.value) = true) := hk
      simp only [List.filter_cons, hk, if_false, Bool.false_eq_true,
        buildGroupsAux, if_neg hk2]
      exact ih _

theorem buildPairGroupsAux_filter :
    ∀ (l : List RadioElem) (gs : List (String × List (String × String))),
    buildPairGroupsAux gs (l.filter labelKeep) = buildPairGroupsAux gs l := by
  intro l
  induction l with
  | nil => intro gs; rfl
  | cons e rest ih =>
    intro gs
    by_cases hk : labelKeep e = true
    · have hk2 : (truthy e.name && truthy e.value && truthy e.id) = true := hk
      simp only [List.filter_cons, hk, if_true, buildPairGroupsAux, hk2]
      exact ih _
    · have hk2 : ¬((truthy e.name && truthy e.value && truthy e.id) = true) :=
        hk
      simp only [List.filter_cons, hk, if_false, Bool.false_eq_true,
        buildPairGroupsAux, if_neg hk2]
      exact ih _

theorem buildGroupsAux_skip_all :
    ∀ (l : List RadioElem) (gs : List (String × List String)),
    (∀ e ∈ l, matrixKeep e = false) → buildGroupsAux gs l = gs := by
  intro l
  induction l with
  | nil => intro gs _; rfl
  | cons e rest ih =>
    intro gs h
    have hk : ¬((truthy e.name && truthy e.value) = true) := by
      have := h e (List.mem_cons_self e rest)
      simp only [matrixKeep] at this
      simp [this]
    rw [buildGroupsAux, if_neg hk]
    exact ih gs (fun x hx => h x (List.mem_cons_of_mem _ hx))

theorem buildPairGroupsAux_skip_all :
    ∀ (l : List RadioElem) (gs : List (String × List (String × String))),
    (∀ e ∈ l, labelKeep e = false) → buildPairGroupsAux gs l = gs := by
  intro l
  induction l with
  | nil => intro gs _; rfl
  | cons e rest ih =>
    intro gs h
    have hk : ¬((truthy e.name && truthy e.value && truthy e.id) = true) := by
      have := h e (List.mem_cons_self e rest)
      simp only [labelKeep] at this
      simp [this]
    rw [buildPairGroupsAux, if_neg hk]
    exact ih gs (fun x hx => h x (List.mem_cons_of_mem _ hx))

/-- Dropping attribute-less radios does not change whether a truthy
name+value selector matches. -/
theorem pageHasRadio_filter (page : PageModel) {n v : String}
    (hn : n ≠ "") (hv : v ≠ "") :
    pageHasRadio (page.withRadios (page.radios.filter matrixKeep)) n v =
      pageHasRadio page n v := by
  show (page.radios.filter matrixKeep).any _ = page.radios.any _
  induction page.radios with
  | nil => rfl
  | cons e rest ih =>
    by_cases hk : matrixKeep e = true
    · simp only [List.filter_cons, hk, if_true, List.any_cons, ih]
    · have hq : (e.name == some n && e.value == some v) = false := by
        rcases hb : (e.name == some n && e.value == some v) with _ | _
        · rfl
        · exfalso
          obtain ⟨h1, h2⟩ := Bool.and_eq_true_iff.mp hb
          have e1 : e.name = some n := by simpa using h1
          have e2 : e.value = some v := by simpa using h2
          exact hk (by simp [matrixKeep, truthy, e1, e2,
            beq_eq_false_iff_ne.mpr hn, beq_eq_false_iff_ne.mpr hv])
      simp only [List.filter_cons, hk, if_false, Bool.false_eq_true,
        List.any_cons, hq, Bool.false_or, ih]

/-- The matrix loop only sees the page through `pageHasRadio` at chosen
values; on well-formed groups the filtered page behaves identically. -/
theorem matrixLoop_withRadios_filter {page : PageModel} {env : Env}
    {enumOrd : String → List String → List String}
    (henum : ∀ n l, (enumOrd n l).Perm l) :
    ∀ (gs : List (String × List String)) (rand : Nat → Nat) (i : Nat),
    (∀ n vs, (n, vs) ∈ gs → n ≠ "" ∧ vs ≠ [] ∧ ∀ v ∈ vs, v ≠ "") →
    matrixLoop (page.withRadios (page.radios.filter matrixKeep)) env enumOrd
        gs rand i =
      matrixLoop page env enumOrd gs rand i := by
  intro gs
  induction gs with
  | nil => intro rand i _; rfl
  | cons head rest ih =>
    intro rand i hg
    obtain ⟨n, vs⟩ := head
    obtain ⟨hn, hvs, hvals⟩ := hg n vs (List.mem_cons_self _ _)
    have hc : chosenValue enumOrd n vs (rand i) ∈ vs :=
      chosenValue_mem hvs (henum n vs) (rand i)
    rw [matrixLoop, matrixLoop, matrixGroupStep, matrixGroupStep,
      pageHasRadio_filter page hn (hvals _ hc),
      ih rand (i + 1) (fun m ws h => hg m ws (List.mem_cons_of_mem _ h))]

/-- The label step does not read the radio list at all (only the labels). -/
theorem labelLoop_withRadios (page : PageModel) (env : Env)
    (rs : List RadioElem) :
    ∀ (gs : List (String × List (String × String))) (rand : Nat → Nat)
      (i : Nat),
    labelLoop (page.withRadios rs) env gs rand i =
      labelLoop page env gs rand i := by
  intro gs
  induction gs with
  | nil => intro rand i; rfl
  | cons head rest ih =>
    intro rand i
    obtain ⟨n, opts⟩ := head
    rw [labelLoop, labelLoop, ih rand (i + 1)]
    rfl

/-- CLAIM C10.  Radios lacking a (non-empty) name or value attribute are
silently excluded by the Radio-Matrix Filler, and radios lacking a
(non-empty) name, value or id attribute are silently excluded by the
Label-Click Filler: filtering them out of the page leaves each filler's
entire behaviour (actions and console output) unchanged.  In particular a
page all of whose radios lack the required attributes produces no check, no
click and no console output at all — only the wait. -/
theorem claim10_attrless_radios_silently_excluded :
    (∀ (page : PageModel) (env : Env) (rand : Nat → Nat)
       (enumOrd : String → List String → List String),
       (∀ n l, (enumOrd n l).Perm l) →
       fillRadioMatrixPage page env rand enumOrd =
         fillRadioMatrixPage (page.withRadios (page.radios.filter matrixKeep))
           env rand enumOrd) ∧
    (∀ (page : PageModel) (env : Env) (rand : Nat → Nat),
       fillPage5or7 page env rand =
         fillPage5or7 (page.withRadios (page.radios.filter labelKeep))
           env rand) ∧
    (∀ (page : PageModel) (env : Env) (rand : Nat → Nat)
       (enumOrd : String → List String → List String),
       page.radioAppears = true → (∀ e ∈ page.radios, matrixKeep e = false) →
       fillRadioMatrixPage page env rand enumOrd =
         ([Event.waitForSel radioAllSel], none)) ∧
    (∀ (page : PageModel) (env : Env) (rand : Nat → Nat),
       page.radioAppears = true → (∀ e ∈ page.radios, labelKeep e = false) →
       fillPage5or7 page env rand = ([Event.waitForSel radioAllSel], none)) := by
  refine ⟨?_, ?_, ?_, ?_⟩
  · intro page env rand enumOrd henum
    rcases happ : page.radioAppears with _ | _
    · have h2 : (page.withRadios
          (page.radios.filter matrixKeep)).radioAppears = false := happ
      rw [fillRadioMatrixPage, fillRadioMatrixPage, if_neg (by simp [happ]),
        if_neg (by simp [h2])]
    · obtain ⟨hnd, hprop⟩ := matrixInv_buildGroups page.radios
      have hgs : buildGroups ((page.withRadios
          (page.radios.filter matrixKeep)).radios) =
          buildGroups page.radios := by
        show buildGroupsAux [] (page.radios.filter matrixKeep) =
          buildGroupsAux [] page.radios
        exact buildGroupsAux_filter page.radios []
      rw [fillRadioMatrixPage, fillRadioMatrixPage]
      have happ2 : (page.withRadios
          (page.radios.filter matrixKeep)).radioAppears = true := happ
      rw [if_pos happ, if_pos happ2, hgs,
        matrixLoop_withRadios_filter henum (buildGroups page.radios) rand 0
          (fun n vs h =>
            ⟨(hprop n vs h).1, (hprop n vs h).2.1,
             fun v hv => ((hprop n vs h).2.2.2 v hv).1⟩)]
  · intro page env rand
    rcases happ : page.radioAppears with _ | _
    · have h2 : (page.withRadios
          (page.radios.filter labelKeep)).radioAppears = false := happ
      rw [fillPage5or7, fillPage5or7, if_neg (by simp [happ]),
        if_neg (by simp [h2])]
    · have hgs : buildPairGroups ((page.withRadios
          (page.radios.filter labelKeep)).radios) =
          buildPairGroups page.radios := by
        show buildPairGroupsAux [] (page.radios.filter labelKeep) =
          buildPairGroupsAux [] page.radios
        exact buildPairGroupsAux_filter page.radios []
      have happ2 : (page.withRadios
          (page.radios.filter labelKeep)).radioAppears = true := happ
      rw [fillPage5or7, fillPage5or7, if_pos happ, if_pos happ2, hgs,
        labelLoop_withRadios page env _ (buildPairGroups page.radios) rand 0]
  · intro page env rand enumOrd happ hall
    have : buildGroups page.radios = [] :=
      buildGroupsAux_skip_all page.radios [] hall
    rw [fillRadioMatrixPage, if_pos happ, this]
    rfl
  · intro page env rand happ hall
    have : buildPairGroups page.radios = [] :=
      buildPairGroupsAux_skip_all page.radios [] hall
    rw [fillPage5or7, if_pos happ, this]
    rfl

/-- Witness for C10 at concrete pages (one mixing valid and attribute-less
radios, one with only attribute-less radios). -/
theorem claim10_attrless_radios_witness :
    (∀ n l, (enumId n l).Perm l) ∧
    fillRadioMatrixPage pgMixedW envOk rand0 enumId =
      fillRadioMatrixPage (pgMixedW.withRadios
        (pgMixedW.radios.filter matrixKeep)) envOk rand0 enumId ∧
    fillPage5or7 pgMixedW envOk rand0 =
      fillPage5or7 (pgMixedW.withRadios
        (pgMixedW.radios.filter labelKeep)) envOk rand0 ∧
    pgInvalidW.radioAppears = true ∧
    (∀ e ∈ pgInvalidW.radios, matrixKeep e = false) ∧
    fillRadioMatrixPage pgInvalidW envOk rand0 enumId =
      ([Event.waitForSel radioAllSel], none) ∧
    (∀ e ∈ pgInvalidW.radios, labelKeep e = false) ∧
    fillPage5or7 pgInvalidW envOk rand0 =
      ([Event.waitForSel radioAllSel], none) :=
  ⟨fun _ l => List.Perm.refl l,
   claim10_attrless_radios_silently_excluded.1 pgMixedW envOk rand0 enumId
     (fun _ l => List.Perm.refl l),
   claim10_attrless_radios_silently_excluded.2.1 pgMixedW envOk rand0,
   rfl, by decide,
   claim10_attrless_radios_silently_excluded.2.2.1 pgInvalidW envOk rand0
     enumId rfl (by decide),
   by decide,
   claim10_attrless_radios_silently_excluded.2.2.2 pgInvalidW envOk rand0
     rfl (by decide)⟩

/-! ### Determinism (C3) -/

/-- Counterexample to C3 as stated: two runs on the same page structure,
the same environment and the same random stream, whose only difference is
the iteration order of the Python `set` of discovered values (which is
determined by neither the random seed nor the page structure: it varies with
the per-process string hash seed), check different values.  Both
enumerations are permutations of the same discovered value set. -/
theorem claim3_determinism_counterexample :
    enumId "q1" ["1", "2"] = ["1", "2"] ∧
    enumRev "q1" ["1", "2"] = ["2", "1"] ∧
    List.Perm (enumRev "q1" ["1", "2"]) (enumId "q1" ["1", "2"]) ∧
    fillRadioMatrixPage pgMatrixW envOk rand0 enumId ≠
      fillRadioMatrixPage pgMatrixW envOk rand0 enumRev := by
  refine ⟨rfl, rfl, by decide, by decide⟩

/-- CLAIM C3 (amended).  Two runs choose the same options whenever they see
the same page structure, driver outcomes and random draws — and, for the
Radio-Matrix Filler only, additionally the same enumeration order of each
group's value set (Python's `list(value_set)` order, which is not fixed by
the seed or the page).  The Label-Click Filler needs no such extra
condition: it draws from lists whose order is the discovery order. -/
theorem claim3_determinism_amended :
    (∀ (p1 p2 : PageModel) (e1 e2 : Env) (r1 r2 : Nat → Nat)
       (o1 o2 : String → List String → List String),
       p1 = p2 → e1 = e2 → r1 = r2 → o1 = o2 →
       fillRadioMatrixPage p1 e1 r1 o1 = fillRadioMatrixPage p2 e2 r2 o2) ∧
    (∀ (p1 p2 : PageModel) (e1 e2 : Env) (r1 r2 : Nat → Nat),
       p1 = p2 → e1 = e2 → r1 = r2 →
       fillPage5or7 p1 e1 r1 = fillPage5or7 p2 e2 r2) := by
  constructor
  · intro p1 p2 e1 e2 r1 r2 o1 o2 hp he hr ho
    rw [hp, he, hr, ho]
  · intro p1 p2 e1 e2 r1 r2 hp he hr
    rw [hp, he, hr]

/-- Witness for the amended C3 at concrete runs. -/
theorem claim3_determinism_amended_witness :
    fillRadioMatrixPage pgMatrixW envOk rand0 enumId =
      fillRadioMatrixPage pgMatrixW envOk rand0 enumId ∧
    fillPage5or7 pgLabelW envOk rand0 = fillPage5or7 pgLabelW envOk rand0 :=
  ⟨claim3_determinism_amended.1 pgMatrixW pgMatrixW envOk envOk rand0 rand0
     enumId enumId rfl rfl rfl rfl,
   claim3_determinism_amended.2 pgLabelW pgLabelW envOk envOk rand0 rand0
     rfl rfl rfl⟩

/-! ### Exception handling (C4) -/

/-- Counterexample to C4 as stated: a non-timeout exception raised by the
Continue/Submit click (`page.click` in `click_continue`) is NOT caught — it
propagates out (and aborts the whole run: `runPerson` ends with a raised
stop and the done-banner is never printed). -/
theorem claim4_exception_counterexample :
    (clickContinue envBadSubmit).2 = some (.otherE "target closed") ∧
    (runPerson pwBadSubmit 1 personW).2 =
      some (.raised (.otherE "target closed")) := by
  refine ⟨rfl, ?_⟩
  decide

/-- CLAIM C4 (amended).  Exceptions raised by the per-field fill/select
actions, by the matrix filler's check actions and by the label filler's
click actions are all caught, logged and recovered from (the fillers always
return normally); a timeout of the Continue/Submit click is caught and
logged; but a non-timeout exception of the Continue/Submit click (in
`fill_first_page`'s trailing click and in `click_continue`) is the one case
that is not caught and escapes. -/
theorem claim4_exception_handling_amended :
    (∀ (page : PageModel) (env : Env) (person : Person),
       ((fillFirstPage page env person).2 = none ↔
         isExnR env.submitRes = false)) ∧
    (∀ (page : PageModel) (env : Env) (rand : Nat → Nat)
       (enumOrd : String → List String → List String),
       (fillRadioMatrixPage page env rand enumOrd).2 = none) ∧
    (∀ (page : PageModel) (env : Env) (rand : Nat → Nat),
       (fillPage5or7 page env rand).2 = none) ∧
    (∀ env : Env,
       ((clickContinue env).2 = none ↔ isExnR env.submitRes = false)) ∧
    (∀ env : Env, env.submitRes = .timeoutErr →
       clickContinue env =
         ([Event.clickSubmit, Event.errMsg continueErrMsg], none)) := by
  refine ⟨?_, ?_, ?_, ?_, ?_⟩
  · intro page env person
    rcases h : env.submitRes with _ | _ | m <;>
      simp [fillFirstPage, clickSubmitP1, tryTimeout, rawAct, h, isExnR]
  · intro page env rand enumOrd
    rcases h : page.radioAppears with _ | _ <;>
      simp [fillRadioMatrixPage, h]
  · intro page env rand
    rcases h : page.radioAppears with _ | _ <;> simp [fillPage5or7, h]
  · intro env
    rcases h : env.submitRes with _ | _ | m <;>
      simp [clickContinue, tryTimeout, rawAct, h, isExnR]
  · intro env h
    simp [clickContinue, tryTimeout, rawAct, h]

/-- Witness for the amended C4 at concrete environments. -/
theorem claim4_exception_handling_witness :
    ((fillFirstPage pgFormW envOk personW2).2 = none ↔
      isExnR envOk.submitRes = false) ∧
    (fillRadioMatrixPage pgMatrixW envOk rand0 enumId).2 = none ∧
    (fillPage5or7 pgLabelW envBadLabel rand0).2 = none ∧
    ((clickContinue envOk).2 = none ↔ isExnR envOk.submitRes = false) ∧
    envTimeoutSubmit.submitRes = .timeoutErr ∧
    clickContinue envTimeoutSubmit =
      ([Event.clickSubmit, Event.errMsg continueErrMsg], none) :=
  ⟨claim4_exception_handling_amended.1 pgFormW envOk personW2,
   claim4_exception_handling_amended.2.1 pgMatrixW envOk rand0 enumId,
   claim4_exception_handling_amended.2.2.1 pgLabelW envBadLabel rand0,
   claim4_exception_handling_amended.2.2.2.1 envOk,
   rfl,
   claim4_exception_handling_amended.2.2.2.2 envTimeoutSubmit rfl⟩

/-! ### Page-1 filler (C5) -/

/-- A field with a matching text input produces exactly one fill (of the
string form of the value), no select action and no select query. -/
theorem fillField_counts_text {page : PageModel} {env : Env} {f : String}
    {v : Scalar} (h : page.hasText f = true) :
    (fillField page env f v).countP isFillE = 1 ∧
    (fillField page env f v).countP isSelectE = 0 ∧
    (fillField page env f v).countP isQuerySelectE = 0 ∧
    Event.fillAct f v.toStr ∈ fillField page env f v := by
  rcases henv : env.fillRes f v.toStr with _ | _ | m <;>
    simp [fillField, h, tryAllE, rawAct, henv, isFillE, isSelectE,
      isQuerySelectE, List.countP_cons, List.countP_nil]

/-- A select control is queried for a field only when the field has no
matching text input. -/
theorem querySelect_mem_fillField {page : PageModel} {env : Env}
    {f f2 : String} {v : Scalar}
    (h : Event.querySelect f2 ∈ fillField page env f v) :
    f2 = f ∧ page.hasText f = false := by
  by_cases ht : page.hasText f = true
  · exfalso
    rcases henv : env.fillRes f v.toStr with _ | _ | m <;>
      · rw [fillField] at h
        simp [ht, tryAllE, rawAct, henv] at h
  · simp only [Bool.not_eq_true] at ht
    by_cases hs : page.hasSelect f = true
    · rcases henv : env.selectRes f v.toStr with _ | _ | m <;>
        · rw [fillField] at h
          simp [ht, hs, tryAllE, rawAct, henv] at h
          exact ⟨h, ht⟩
    · simp only [Bool.not_eq_true] at hs
      rw [fillField] at h
      simp [ht, hs] at h
      exact ⟨h, ht⟩

/-- The trailing page-1 Continue click contributes no field events. -/
theorem clickSubmitP1_no_field_events (env : Env) :
    (clickSubmitP1 env).1.countP isFillE = 0 ∧
    (clickSubmitP1 env).1.countP isSelectE = 0 ∧
    (clickSubmitP1 env).1.countP isQuerySelectE = 0 ∧
    ∀ f, Event.querySelect f ∉ (clickSubmitP1 env).1 := by
  rcases h : env.submitRes with _ | _ | m <;>
    simp [clickSubmitP1, tryTimeout, rawAct, h, isFillE, isSelectE,
      isQuerySelectE, List.countP_cons, List.countP_nil]

/-- Field-loop counts when every field has a matching text input. -/
theorem fillFields_counts (page : PageModel) (env : Env) :
    ∀ person : Person, (∀ fv ∈ person, page.hasText fv.1 = true) →
    (person.flatMap (fun fv => fillField page env fv.1 fv.2)).countP isFillE =
      person.length ∧
    (person.flatMap (fun fv => fillField page env fv.1 fv.2)).countP
      isSelectE = 0 ∧
    (person.flatMap (fun fv => fillField page env fv.1 fv.2)).countP
      isQuerySelectE = 0 := by
  intro person
  induction person with
  | nil => intro _; simp
  | cons fv rest ih =>
    intro h
    have hf := @fillField_counts_text page env fv.1 fv.2
      (h fv (List.mem_cons_self _ _))
    have hr := ih (fun x hx => h x (List.mem_cons_of_mem _ hx))
    simp only [List.flatMap_cons, List.countP_append, List.length_cons]
    refine ⟨?_, ?_, ?_⟩
    · rw [hf.1, hr.1]; omega
    · rw [hf.2.1, hr.2.1]
    · rw [hf.2.2.1, hr.2.2]

/-- CLAIM C5.  When every field of the record has a matching text input, the
Page-1 Filler issues exactly one fill per field (with the string form of the
value) and no select action, and never even queries a select control; in
general a select control is queried for a field only when that field has no
matching text input. -/
theorem claim5_page1_filler (page : PageModel) (env : Env) (person : Person)
    (h : ∀ fv ∈ person, page.hasText fv.1 = true) :
    (fillFirstPage page env person).1.countP isFillE = person.length ∧
    (fillFirstPage page env person).1.countP isSelectE = 0 ∧
    (fillFirstPage page env person).1.countP isQuerySelectE = 0 ∧
    (∀ fv ∈ person,
      Event.fillAct fv.1 fv.2.toStr ∈ (fillFirstPage page env person).1) ∧
    (∀ (page2 : PageModel) (env2 : Env) (person2 : Person) (f : String),
      Event.querySelect f ∈ (fillFirstPage page2 env2 person2).1 →
      page2.hasText f = false) := by
  have hsub := clickSubmitP1_no_field_events env
  have hloop := fillFields_counts page env person h
  refine ⟨?_, ?_, ?_, ?_, ?_⟩
  · rw [fillFirstPage, List.countP_append, hloop.1, hsub.1]
    omega
  · rw [fillFirstPage, List.countP_append, hloop.2.1, hsub.2.1]
  · rw [fillFirstPage, List.countP_append, hloop.2.2, hsub.2.2.1]
  · intro fv hfv
    rw [fillFirstPage]
    refine List.mem_append.mpr (Or.inl ?_)
    exact List.mem_flatMap.mpr ⟨fv, hfv,
      (fillField_counts_text (h fv hfv)).2.2.2⟩
  · intro page2 env2 person2 f hf
    rw [fillFirstPage] at hf
    rcases List.mem_append.mp hf with hf | hf
    · obtain ⟨fv, _, hmem⟩ := List.mem_flatMap.mp hf
      obtain ⟨rfl, hft⟩ := querySelect_mem_fillField hmem
      exact hft
    · exact absurd hf ((clickSubmitP1_no_field_events env2).2.2.2 f)

/-- Witness for C5: the spec's own scenario (record `element_2 = Ali`,
`element_3 = Rezaei`, page with both text inputs). -/
theorem claim5_page1_filler_witness :
    (∀ fv ∈ personW2, pgFormW.hasText fv.1 = true) ∧
    ((fillFirstPage pgFormW envOk personW2).1.countP isFillE =
      personW2.length ∧
    (fillFirstPage pgFormW envOk personW2).1.countP isSelectE = 0 ∧
    (fillFirstPage pgFormW envOk personW2).1.countP isQuerySelectE = 0 ∧
    (∀ fv ∈ personW2, Event.fillAct fv.1 fv.2.toStr ∈
      (fillFirstPage pgFormW envOk personW2).1) ∧
    (∀ (page2 : PageModel) (env2 : Env) (person2 : Person) (f : String),
      Event.querySelect f ∈ (fillFirstPage page2 env2 person2).1 →
      page2.hasText f = false)) :=
  ⟨by decide, claim5_page1_filler pgFormW envOk personW2 (by decide)⟩

/-! ### Orchestration (C2, C8, C9) -/

/-- A straight-line sequence of steps none of which raises runs all steps in
order. -/
theorem seqList_all_none :
    ∀ l : List Res, (∀ r ∈ l, r.2 = none) →
    seqList l = ((l.map Prod.fst).flatten, none) := by
  intro l
  induction l with
  | nil => intro _; rfl
  | cons r rest ih =>
    intro h
    obtain ⟨es, x⟩ := r
    have hx : x = none := h _ (List.mem_cons_self _ _)
    subst hx
    rw [seqList]
    rw [ih (fun s hs => h s (List.mem_cons_of_mem _ hs))]
    rfl

/-- The matrix filler returns normally in every world. -/
theorem fillRadioMatrixPage_noexn (page : PageModel) (env : Env)
    (rand : Nat → Nat) (enumOrd : String → List String → List String) :
    (fillRadioMatrixPage page env rand enumOrd).2 = none := by
  rcases h : page.radioAppears with _ | _ <;> simp [fillRadioMatrixPage, h]

/-- The label filler returns normally in every world. -/
theorem fillPage5or7_noexn (page : PageModel) (env : Env)
    (rand : Nat → Nat) : (fillPage5or7 page env rand).2 = none := by
  rcases h : page.radioAppears with _ | _ <;> simp [fillPage5or7, h]

/-- `click_continue` returns normally unless the click raises a non-timeout
exception. -/
theorem clickContinue_noexn {env : Env}
    (h : isExnR env.submitRes = false) : (clickContinue env).2 = none := by
  rcases hs : env.submitRes with _ | _ | m
  · simp [clickContinue, tryTimeout, rawAct, hs]
  · simp [clickContinue, tryTimeout, rawAct, hs]
  · simp [isExnR, hs] at h

/-- `fill_first_page` returns normally unless its trailing click raises a
non-timeout exception. -/
theorem fillFirstPage_noexn {page : PageModel} {env : Env} {person : Person}
    (h : isExnR env.submitRes = false) :
    (fillFirstPage page env person).2 = none := by
  rcases hs : env.submitRes with _ | _ | m
  · simp [fillFirstPage, clickSubmitP1, tryTimeout, rawAct, hs]
  · simp [fillFirstPage, clickSubmitP1, tryTimeout, rawAct, hs]
  · simp [isExnR, hs] at h

/-- CLAIM C2.  For every person record, when page 1 loads and no Continue
click raises a non-timeout exception, the iteration of the person loop is
exactly: banner, navigation, container wait, the page-1 filler (which ends
with page 1's Continue click), and then — for the fixed page order matrix,
matrix, matrix, label-click, matrix, label-click, matrix on slots 2–8 — a
1000 ms settle pause, the page's fill strategy, and the Continue click, with
no branch, no repetition, and the done banner at the end. -/
theorem claim2_orchestration (pw : PersonWorld) (idx : Nat) (person : Person)
    (hgoto : pw.gotoRes = .ok) (hcont : pw.containerOk = true)
    (hsub : ∀ k, isExnR ((pw.env k).submitRes) = false) :
    runPerson pw idx person =
      ([Event.info (processingBanner idx), Event.gotoPage siteUrl,
        Event.waitForSel containerSel] ++
        (fillFirstPage (pw.page 1) (pw.env 1) person).1 ++
        (pageOrder.zip [2, 3, 4, 5, 6, 7, 8]).flatMap
          (fun ks => Event.pauseMs 1000 ::
            (stratTrace ks.1 pw ks.2 ++ (clickContinue (pw.env ks.2)).1)) ++
        [Event.info (doneBanner idx)], none) := by
  have hseq := seqList_all_none
    [ fillFirstPage (pw.page 1) (pw.env 1) person
    , pauseStep
    , fillRadioMatrixPage (pw.page 2) (pw.env 2) (pw.rand 2) pw.enumOrd
    , clickContinue (pw.env 2)
    , pauseStep
    , fillRadioMatrixPage (pw.page 3) (pw.env 3) (pw.rand 3) pw.enumOrd
    , clickContinue (pw.env 3)
    , pauseStep
    , fillRadioMatrixPage (pw.page 4) (pw.env 4) (pw.rand 4) pw.enumOrd
    , clickContinue (pw.env 4)
    , pauseStep
    , fillPage5or7 (pw.page 5) (pw.env 5) (pw.rand 5)
    , clickContinue (pw.env 5)
    , pauseStep
    , fillRadioMatrixPage (pw.page 6) (pw.env 6) (pw.rand 6) pw.enumOrd
    , clickContinue (pw.env 6)
    , pauseStep
    , fillPage5or7 (pw.page 7) (pw.env 7) (pw.rand 7)
    , clickContinue (pw.env 7)
    , pauseStep
    , fillRadioMatrixPage (pw.page 8) (pw.env 8) (pw.rand 8) pw.enumOrd
    , clickContinue (pw.env 8) ]
    (by
      intro r hr
      simp only [List.mem_cons, List.not_mem_nil, or_false] at hr
      rcases hr with rfl | rfl | rfl | rfl | rfl | rfl | rfl | rfl | rfl |
        rfl | rfl | rfl | rfl | rfl | rfl | rfl | rfl | rfl | rfl | rfl |
        rfl | rfl
      · exact fillFirstPage_noexn (hsub 1)
      · rfl
      · exact fillRadioMatrixPage_noexn ..
      · exact clickContinue_noexn (hsub 2)
      · rfl
      · exact fillRadioMatrixPage_noexn ..
      · exact clickContinue_noexn (hsub 3)
      · rfl
      · exact fillRadioMatrixPage_noexn ..
      · exact clickContinue_noexn (hsub 4)
      · rfl
      · exact fillPage5or7_noexn ..
      · exact clickContinue_noexn (hsub 5)
      · rfl
      · exact fillRadioMatrixPage_noexn ..
      · exact clickContinue_noexn (hsub 6)
      · rfl
      · exact fillPage5or7_noexn ..
      · exact clickContinue_noexn (hsub 7)
      · rfl
      · exact fillRadioMatrixPage_noexn ..
      · exact clickContinue_noexn (hsub 8))
  rw [runPerson, hgoto]
  simp only [hcont, if_true]
  rw [hseq]
  simp only [List.map_cons, List.map_nil, List.flatten, pageOrder,
    List.zip, List.zipWith, List.flatMap_cons, List.flatMap_nil,
    stratTrace, pauseStep, List.append_assoc, List.append_nil,
    List.cons_append, List.nil_append]

/-- Witness for C2 at a concrete fully-succeeding world. -/
theorem claim2_orchestration_witness :
    pwW.gotoRes = .ok ∧ pwW.containerOk = true ∧
    (∀ k, isExnR ((pwW.env k).submitRes) = false) ∧
    runPerson pwW 1 personW =
      ([Event.info (processingBanner 1), Event.gotoPage siteUrl,
        Event.waitForSel containerSel] ++
        (fillFirstPage (pwW.page 1) (pwW.env 1) personW).1 ++
        (pageOrder.zip [2, 3, 4, 5, 6, 7, 8]).flatMap
          (fun ks => Event.pauseMs 1000 ::
            (stratTrace ks.1 pwW ks.2 ++
              (clickContinue (pwW.env ks.2)).1)) ++
        [Event.info (doneBanner 1)], none) :=
  ⟨rfl, rfl, fun _ => rfl,
   claim2_orchestration pwW 1 personW rfl rfl (fun _ => rfl)⟩

/-- CLAIM C8.  If, for some person, page 1 loads but the container never
appears within its wait bound, the iteration prints the specific error and
closes the browser, and the whole loop stops with exactly that trace — the
result does not depend on the current person or on the remaining records, so
no further record is processed.  At `main` level, with such a failure on the
first of several records, the full run trace ends at the browser close. -/
theorem claim8_container_failure_fatal :
    (∀ (w : World) (p : Person) (rest : List Person) (i : Nat),
      (w.pw i).gotoRes = .ok → (w.pw i).containerOk = false →
      processPeople w (p :: rest) i =
        ([Event.info (processingBanner i), Event.gotoPage siteUrl,
          Event.waitForSel containerSel, Event.errMsg containerErrMsg,
          Event.closeBrowser], some .fatalStop)) ∧
    (∀ (w : World) (p : Person) (rest : List Person),
      w.fileExists = true → w.parsed = .ok (p :: rest) →
      (w.pw 1).gotoRes = .ok → (w.pw 1).containerOk = false →
      mainProg w =
        ([Event.launchBrowser, Event.info (processingBanner 1),
          Event.gotoPage siteUrl, Event.waitForSel containerSel,
          Event.errMsg containerErrMsg, Event.closeBrowser], none)) := by
  have hone : ∀ (w : World) (p : Person) (rest : List Person) (i : Nat),
      (w.pw i).gotoRes = .ok → (w.pw i).containerOk = false →
      processPeople w (p :: rest) i =
        ([Event.info (processingBanner i), Event.gotoPage siteUrl,
          Event.waitForSel containerSel, Event.errMsg containerErrMsg,
          Event.closeBrowser], some .fatalStop) := by
    intro w p rest i hgoto hcont
    rw [processPeople, runPerson, hgoto]
    simp [hcont]
  refine ⟨hone, ?_⟩
  intro w p rest hfe hparse hgoto hcont
  simp only [mainProg, if_pos hfe, hparse]
  rw [hone w p rest 1 hgoto hcont]

/-- Witness for C8 at a concrete two-record world whose container wait
fails. -/
theorem claim8_container_failure_witness :
    (wNoContainer.pw 1).gotoRes = .ok ∧
    (wNoContainer.pw 1).containerOk = false ∧
    wNoContainer.fileExists = true ∧
    wNoContainer.parsed = .ok (personW :: [personW]) ∧
    processPeople wNoContainer (personW :: [personW]) 1 =
      ([Event.info (processingBanner 1), Event.gotoPage siteUrl,
        Event.waitForSel containerSel, Event.errMsg containerErrMsg,
        Event.closeBrowser], some .fatalStop) ∧
    mainProg wNoContainer =
      ([Event.launchBrowser, Event.info (processingBanner 1),
        Event.gotoPage siteUrl, Event.waitForSel containerSel,
        Event.errMsg containerErrMsg, Event.closeBrowser], none) :=
  ⟨rfl, rfl, rfl, rfl,
   claim8_container_failure_fatal.1 wNoContainer personW [personW] 1 rfl rfl,
   claim8_container_failure_fatal.2 wNoContainer personW [personW]
     rfl rfl rfl rfl⟩

/-- CLAIM C9.  A missing data file is reported on the console and nothing
else happens (no browser launch, no navigation); an existing file whose
contents fail JSON parsing makes the program crash with an uncaught
exception before any browser interaction (its trace is empty — in
particular no launch and no navigation). -/
theorem claim9_prebrowser_errors :
    (∀ w : World, w.fileExists = false →
      mainProg w = ([Event.errMsg fileMissingMsg], none)) ∧
    (∀ (w : World) (m : String), w.fileExists = true →
      w.parsed = .error m → mainProg w = ([], some (.otherE m))) := by
  constructor
  · intro w h
    rw [mainProg, if_neg (by simp [h])]
  · intro w m hfe hparse
    rw [mainProg, if_pos hfe, hparse]

/-- Witness for C9 at concrete worlds. -/
theorem claim9_prebrowser_errors_witness :
    wNoFile.fileExists = false ∧
    mainProg wNoFile = ([Event.errMsg fileMissingMsg], none) ∧
    wBadJson.fileExists = true ∧
    wBadJson.parsed = .error "Expecting value" ∧
    mainProg wBadJson = ([], some (.otherE "Expecting value")) :=
  ⟨rfl, claim9_prebrowser_errors.1 wNoFile rfl, rfl, rfl,
   claim9_prebrowser_errors.2 wBadJson "Expecting value" rfl rfl⟩

end Avalform
